import Mathlib

/-! # Skill-swap platform: swap-request lifecycle

A shallow embedding of the Express route handlers in
`backend/routes/swapRoutes.js`, of the handlers of `backend/routes/userRoutes.js`
and `backend/routes/adminRoutes.js` that read one user or write users and swaps,
and of the Mongoose schemas and methods in `backend/models/SwapRequest.js` and
`backend/models/User.js`.

Conventions of the embedding

* The document store is passed explicitly: a handler takes the collections it
  reads and returns the response together with the collection it writes.
* `new Date()` / `Date.now()` is the argument `now`; the identifier the driver
  gives a new document is the argument `newId`.
* `req.user` is the authenticated caller supplied by the `auth` middleware; the
  handlers only read `req.user._id`, which is the argument `user`.
* Request-body fields are JSON strings or absent (`Option String`); the
  `rating` of a feedback request is a `JsRating`.
* Stored documents are taken to satisfy their schema, as every document written
  through `save` does, so whether `save` passes is decided by the paths the
  handler has assigned. The one write that runs no validators is
  `DELETE /admin/content/swap/:id`, whose `reason` becomes the `adminNote`; on a
  swap it left with a note longer than the schema allows, `save` fails until the
  note is replaced.
* Every handler body sits in `try { ... } catch { res.status(500) }`: an
  exception thrown by the ORM (a cast error, a validation error on `save`) gives
  `serverError` and writes nothing.
-/

namespace SkillSwap

/-! ## Identifiers and strings -/

/-- An ObjectId, held as its canonical text: 24 lowercase hexadecimal digits.
`toString()` of an ObjectId is this text. -/
structure ObjectId where
  hex : String
  deriving DecidableEq, Repr

/-- The source's `_id.toString()`. -/
def ObjectId.toString (o : ObjectId) : String := o.hex

/-- Hexadecimal digits, either case (the ObjectId pattern `[0-9a-fA-F]`). -/
def isHexChar (c : Char) : Bool :=
  ('0'.toNat ≤ c.toNat && c.toNat ≤ '9'.toNat) ||
  ('a'.toNat ≤ c.toNat && c.toNat ≤ 'f'.toNat) ||
  ('A'.toNat ≤ c.toNat && c.toNat ≤ 'F'.toNat)

/-- Lower-case form of a hexadecimal digit. -/
def lowerHex (c : Char) : Char :=
  match c with
  | 'A' => 'a'
  | 'B' => 'b'
  | 'C' => 'c'
  | 'D' => 'd'
  | 'E' => 'e'
  | 'F' => 'f'
  | d => d

/-- The cast the ORM applies to a string used as an ObjectId (`findById(str)`,
a query on an ObjectId path, assignment to an ObjectId path): a string of 24
hexadecimal digits in either case denotes the ObjectId with those digits; any
other string is a cast error (`none`). -/
def castObjectId (s : String) : Option ObjectId :=
  if s.data.length = 24 ∧ s.data.all isHexChar = true then
    some ⟨String.mk (s.data.map lowerHex)⟩
  else none

/-- JavaScript truthiness of a body field that is a string or absent:
`undefined` and `""` are falsy. -/
def truthy : Option String → Bool
  | none => false
  | some s => decide (s ≠ "")

/-- Code points removed by `String.prototype.trim` (ECMAScript WhiteSpace and
LineTerminator). -/
def isJsSpace (c : Char) : Bool :=
  let n := c.toNat
  (9 ≤ n && n ≤ 13) || n = 32 || n = 160 || n = 5760 ||
  (8192 ≤ n && n ≤ 8202) || n = 8232 || n = 8233 || n = 8239 ||
  n = 8287 || n = 12288 || n = 65279

/-- The schema option `trim: true`: `String.prototype.trim`. -/
def trim (s : String) : String :=
  String.mk ((s.data.dropWhile isJsSpace).reverse.dropWhile isJsSpace).reverse

/-- The `length` of a JavaScript string: UTF-16 code units. -/
def jsLength (s : String) : Nat :=
  (s.data.map (fun c => if c.toNat < 65536 then 1 else 2)).sum

/-! ## Documents (`models/SwapRequest.js`, `models/User.js`) -/

/-- An entry of `swapRequestSchema.feedback`. -/
structure SwapFeedback where
  from_ : ObjectId
  rating : ℚ
  comment : String
  createdAt : Nat
  deriving DecidableEq

/-- A stored SwapRequest document. `status = none` is a document whose `status`
path is unset. -/
structure SwapRequest where
  _id : ObjectId
  fromUser : ObjectId
  toUser : ObjectId
  offeredSkill : String
  wantedSkill : String
  status : Option String
  message : Option String
  adminNote : Option String
  completedAt : Option Nat
  rejectedAt : Option Nat
  acceptedAt : Option Nat
  feedback : List SwapFeedback
  createdAt : Nat
  updatedAt : Nat
  deriving DecidableEq

/-- An entry of `userSchema.feedback`. -/
structure UserFeedback where
  from_ : ObjectId
  message : String
  rating : ℚ
  createdAt : Nat
  deriving DecidableEq

/-- A stored User document. -/
structure User where
  _id : ObjectId
  name : String
  email : String
  passwordHash : String
  location : Option String
  profilePhoto : Option String
  skillsOffered : List String
  skillsWanted : List String
  availability : String
  profileType : String
  role : String
  rating : ℚ
  ratingCount : ℕ
  feedback : List UserFeedback
  isActive : Bool
  deriving DecidableEq

/-- The `enum` of `swapRequestSchema.status`. -/
def statusEnum : List String :=
  ["pending", "accepted", "rejected", "completed", "cancelled"]

/-- The `enum` validator of `status`: an unset path is not validated. -/
def validStatus : Option String → Bool
  | none => true
  | some s => decide (s ∈ statusEnum)

/-- A `maxlength` validator: an unset path is not validated. -/
def validMaxlength (max : Nat) : Option String → Bool
  | none => true
  | some s => decide (jsLength s ≤ max)

/-- The `required` validator of a String path: the value must be a non-empty
string. -/
def validRequired (s : String) : Bool := decide (s ≠ "")

/-- What reading a stored document gives: the schema default `"pending"` is
applied to an unset `status`. -/
def hydrate (d : SwapRequest) : SwapRequest :=
  { d with status := some (d.status.getD "pending") }

/-- The source's `SwapRequest.findById(id)` on an id that has been cast. -/
def findById (swaps : List SwapRequest) (id : ObjectId) : Option SwapRequest :=
  (swaps.find? (fun d => decide (d._id = id))).map hydrate

/-- The source's `User.findById(id)` on an id that has been cast. -/
def findUserById (users : List User) (id : ObjectId) : Option User :=
  users.find? (fun u => decide (u._id = id))

/-- Writing back a loaded document: the stored document with that `_id` is
replaced. -/
def writeBack (swaps : List SwapRequest) (doc : SwapRequest) : List SwapRequest :=
  swaps.map (fun d => if d._id = doc._id then doc else d)

/-! ## Responses -/

/-- An HTTP response: status code and the `error` / `message` text. -/
structure Response where
  code : Nat
  text : String
  deriving DecidableEq, Repr

/-- The `catch` branch of every handler. -/
def serverError : Response := ⟨500, "Server error"⟩

/-! ## `PUT /swaps/:id` (swapRoutes.js, lines 122-180) -/

/-- The body of `PUT /swaps/:id`: `{ status, adminNote }`. -/
structure UpdateBody where
  status : Option String
  adminNote : Option String
  deriving DecidableEq

/-- The authorization chain of lines 132-147: `some r` is the refusal that is
returned, `none` means the handler goes on. -/
def putSwapRefusal (user : ObjectId) (swap : SwapRequest) (status : Option String) :
    Option Response :=
  if status = some "accepted" ∨ status = some "rejected" then
    if user.toString ≠ swap.toUser.toString then
      some ⟨403, "Only the recipient can accept or reject this request"⟩
    else none
  else if status = some "cancelled" then
    if user.toString ≠ swap.fromUser.toString then
      some ⟨403, "Only the sender can cancel this request"⟩
    else none
  else if status = some "completed" then
    if user.toString ≠ swap.fromUser.toString ∧ user.toString ≠ swap.toUser.toString then
      some ⟨403, "Only participants can mark the swap as completed"⟩
    else none
  else none

/-- Lines 149-163: the assignments made to the loaded document before `save`. -/
def putSwapAssign (swap : SwapRequest) (body : UpdateBody) (now : Nat) : SwapRequest :=
  let s1 := { swap with status := body.status }
  let s2 := if truthy body.adminNote then { s1 with adminNote := body.adminNote } else s1
  if body.status = some "accepted" then { s2 with acceptedAt := some now }
  else if body.status = some "rejected" then { s2 with rejectedAt := some now }
  else if body.status = some "completed" then { s2 with completedAt := some now }
  else s2

/-- The validation `save` runs on the paths the handler has assigned: the
`enum` of `status`, and the `maxlength` of `adminNote` when it was assigned. The
paths the handler leaves alone are those of the stored document, taken to
satisfy the schema. -/
def putSwapValid (body : UpdateBody) : Bool :=
  validStatus body.status &&
    (if truthy body.adminNote then validMaxlength 500 body.adminNote else true)

/-- The text of a possibly absent string inside a template literal. -/
def templateText : Option String → String
  | none => "undefined"
  | some s => s

/-- The handler of `PUT /swaps/:id`. -/
def putSwap (swaps : List SwapRequest) (user : ObjectId) (swapId : String)
    (body : UpdateBody) (now : Nat) : Response × List SwapRequest :=
  match castObjectId swapId with
  | none => (serverError, swaps)
  | some id =>
    match findById swaps id with
    | none => (⟨404, "Swap request not found"⟩, swaps)
    | some swap =>
      match putSwapRefusal user swap body.status with
      | some refusal => (refusal, swaps)
      | none =>
        let doc := putSwapAssign swap body now
        if putSwapValid body then
          (⟨200, "Swap request " ++ templateText body.status ++ " successfully"⟩,
            writeBack swaps { doc with updatedAt := now })
        else (serverError, swaps)

/-! ## `POST /swaps` (swapRoutes.js, lines 8-65) -/

/-- The body of `POST /swaps`: `{ toUser, offeredSkill, wantedSkill, message }`. -/
structure CreateBody where
  toUser : Option String
  offeredSkill : Option String
  wantedSkill : Option String
  message : Option String
  deriving DecidableEq

/-- The filter of the `findOne` of lines 28-34, on a stored document. The
string values of the filter pass through the schema's `trim` like the values of
a document do. -/
def isPendingDuplicate (user rid : ObjectId) (offeredSkill wantedSkill : String)
    (d : SwapRequest) : Bool :=
  decide (d.fromUser = user) && decide (d.toUser = rid) &&
    decide (d.offeredSkill = trim offeredSkill) &&
    decide (d.wantedSkill = trim wantedSkill) &&
    decide (d.status = some "pending")

/-- Lines 41-47: the new document, with the schema's setters (`trim`) and
defaults (`status`, `feedback`, the timestamps) applied. -/
def newSwapRequest (newId user rid : ObjectId) (offeredSkill wantedSkill : String)
    (message : Option String) (now : Nat) : SwapRequest :=
  { _id := newId
    fromUser := user
    toUser := rid
    offeredSkill := trim offeredSkill
    wantedSkill := trim wantedSkill
    status := some "pending"
    message := message.map trim
    adminNote := none
    completedAt := none
    rejectedAt := none
    acceptedAt := none
    feedback := []
    createdAt := now
    updatedAt := now }

/-- The validation `save` runs on a new document: `required` and `maxlength`
of the two skills, `maxlength` of `message` and `adminNote`, `enum` of
`status`. -/
def newSwapValid (doc : SwapRequest) : Bool :=
  validRequired doc.offeredSkill && validMaxlength 100 (some doc.offeredSkill) &&
    validRequired doc.wantedSkill && validMaxlength 100 (some doc.wantedSkill) &&
    validStatus doc.status && validMaxlength 500 doc.message &&
    validMaxlength 500 doc.adminNote

/-- The handler of `POST /swaps`. -/
def postSwap (users : List User) (swaps : List SwapRequest) (user : ObjectId)
    (body : CreateBody) (newId : ObjectId) (now : Nat) : Response × List SwapRequest :=
  if !truthy body.toUser || !truthy body.offeredSkill || !truthy body.wantedSkill then
    (⟨400, "Recipient, offered skill, and wanted skill are required"⟩, swaps)
  else
    let toUser := body.toUser.getD ""
    let offeredSkill := body.offeredSkill.getD ""
    let wantedSkill := body.wantedSkill.getD ""
    if user.toString = toUser then
      (⟨400, "You cannot send a swap request to yourself"⟩, swaps)
    else
      match castObjectId toUser with
      | none => (serverError, swaps)
      | some rid =>
        match findUserById users rid with
        | none => (⟨404, "Recipient not found or inactive"⟩, swaps)
        | some recipient =>
          if !recipient.isActive then
            (⟨404, "Recipient not found or inactive"⟩, swaps)
          else if (swaps.find? (isPendingDuplicate user rid offeredSkill wantedSkill)).isSome then
            (⟨400, "You already have a pending request for these skills with this user"⟩,
              swaps)
          else
            let swap := newSwapRequest newId user rid offeredSkill wantedSkill body.message now
            if newSwapValid swap then
              (⟨201, "Swap request created successfully"⟩, swaps ++ [swap])
            else (serverError, swaps)

/-! ## `DELETE /swaps/:id` (swapRoutes.js, lines 207-233) -/

/-- The handler of `DELETE /swaps/:id`. `findByIdAndDelete` removes one
document with the given `_id`. -/
def deleteSwap (swaps : List SwapRequest) (user : ObjectId) (swapId : String) :
    Response × List SwapRequest :=
  match castObjectId swapId with
  | none => (serverError, swaps)
  | some id =>
    match findById swaps id with
    | none => (⟨404, "Swap request not found"⟩, swaps)
    | some swap =>
      if user.toString ≠ swap.fromUser.toString then
        (⟨403, "Only the sender can delete this request"⟩, swaps)
      else if swap.status ≠ some "pending" then
        (⟨400, "Only pending requests can be deleted"⟩, swaps)
      else
        (⟨200, "Swap request deleted successfully"⟩,
          swaps.eraseP (fun d => decide (d._id = id)))

/-! ## Ratings (`models/User.js`, lines 106-117) -/

/-- The virtual `averageRating`. -/
def averageRating (u : User) : ℚ :=
  if u.ratingCount = 0 then 0 else u.rating / u.ratingCount

/-- The assignments of the method `updateRating(newRating)`; the method then
calls `save`. -/
def updateRating (u : User) (newRating : ℚ) : User :=
  { u with
    rating := ((u.rating * u.ratingCount) + newRating) / (u.ratingCount + 1)
    ratingCount := u.ratingCount + 1 }

/-- The validation of an entry pushed on `userSchema.feedback`: `message` is
required and at most 500 long, `rating` lies between 1 and 5. -/
def validUserFeedback (f : UserFeedback) : Bool :=
  validRequired f.message && validMaxlength 500 (some f.message) &&
    decide (1 ≤ f.rating) && decide (f.rating ≤ 5)

/-- The validation `save` runs on a user after a feedback entry was pushed and
`updateRating` has run: the new entry, and `min: 0`, `max: 5` of `rating`. -/
def ratedUserValid (u : User) (entry : UserFeedback) : Bool :=
  validUserFeedback entry && decide (0 ≤ u.rating) && decide (u.rating ≤ 5)

/-- Writing back a loaded user: the stored user with that `_id` is replaced. -/
def writeBackUser (users : List User) (doc : User) : List User :=
  users.map (fun u => if u._id = doc._id then doc else u)

/-! ## `POST /swaps/:id/feedback` (swapRoutes.js, lines 283-361) -/

/-- The `rating` of a request body, by what JavaScript makes of it: missing
(`undefined`, `null`), a JSON number, or a truthy value that converts to `NaN`
(a string such as `"abc"`, an object). -/
inductive JsRating where
  | absent
  | num (q : ℚ)
  | nan
  deriving DecidableEq

/-- The test `!rating`. -/
def JsRating.falsy : JsRating → Bool
  | .absent => true
  | .num q => decide (q = 0)
  | .nan => false

/-- The test `rating < 1 || rating > 5`: a comparison with `NaN` is false. -/
def JsRating.outOfRange : JsRating → Bool
  | .absent => false
  | .num q => decide (q < 1) || decide (q > 5)
  | .nan => false

/-- The cast of a value assigned to a Number path; `none` is a cast error. -/
def JsRating.cast : JsRating → Option ℚ
  | .absent => none
  | .num q => some q
  | .nan => none

/-- The body of `POST /swaps/:id/feedback`: `{ rating, comment }`. -/
structure FeedbackBody where
  rating : JsRating
  comment : Option String
  deriving DecidableEq

/-- The source's `comment || ""`. -/
def commentOrEmpty (comment : Option String) : String :=
  if truthy comment then comment.getD "" else ""

/-- The source's `comment || (template literal)` of line 343. -/
def feedbackMessage (comment : Option String) (swap : SwapRequest) : String :=
  if truthy comment then comment.getD ""
  else "Feedback for " ++ swap.offeredSkill ++ " <-> " ++ swap.wantedSkill ++ " swap"

/-- The participant test of line 308 on the swap loaded with `populate`: a
reference to a user that is not stored is populated as `null`, and reading
`_id` of `null` throws (`none`). `some true` means the 403 is returned. -/
def feedbackStranger (users : List User) (swap : SwapRequest) (user : ObjectId) :
    Option Bool :=
  match findUserById users swap.fromUser with
  | none => none
  | some f =>
    if f._id.toString ≠ user.toString then
      match findUserById users swap.toUser with
      | none => none
      | some t => some (decide (t._id.toString ≠ user.toString))
    else some false

/-- The `targetUserId` of line 337; `none` when reading `_id` of `null`
throws. -/
def feedbackTarget (users : List User) (swap : SwapRequest) (user : ObjectId) :
    Option ObjectId :=
  match findUserById users swap.fromUser with
  | none => none
  | some f =>
    if f._id.toString = user.toString then
      (findUserById users swap.toUser).map (fun t => t._id)
    else some f._id

/-- Lines 336-350, after the swap was saved: the entry is pushed on the target
user, `updateRating` runs and saves. `none` when something throws. -/
def rateTarget (users : List User) (swap : SwapRequest) (user : ObjectId) (rating : ℚ)
    (comment : Option String) (now : Nat) : Option (List User) :=
  match feedbackTarget users swap user with
  | none => none
  | some targetUserId =>
    match findUserById users targetUserId with
    | none => some users
    | some targetUser =>
      let entry : UserFeedback := ⟨user, feedbackMessage comment swap, rating, now⟩
      let rated := updateRating { targetUser with feedback := targetUser.feedback ++ [entry] }
        rating
      if ratedUserValid rated entry then some (writeBackUser users rated) else none

/-- The handler of `POST /swaps/:id/feedback`: the response, the swaps and the
users afterwards. -/
def postFeedback (swaps : List SwapRequest) (users : List User) (user : ObjectId)
    (swapId : String) (body : FeedbackBody) (now : Nat) :
    Response × List SwapRequest × List User :=
  if body.rating.falsy then (⟨400, "Rating is required"⟩, swaps, users)
  else if body.rating.outOfRange then
    (⟨400, "Rating must be between 1 and 5"⟩, swaps, users)
  else
    match castObjectId swapId with
    | none => (serverError, swaps, users)
    | some id =>
      match findById swaps id with
      | none => (⟨404, "Swap request not found"⟩, swaps, users)
      | some swap =>
        match feedbackStranger users swap user with
        | none => (serverError, swaps, users)
        | some true =>
          (⟨403, "You can only provide feedback for your own swaps"⟩, swaps, users)
        | some false =>
          if swap.status ≠ some "completed" then
            (⟨400, "Can only provide feedback for completed swaps"⟩, swaps, users)
          else if swap.feedback.any (fun f => decide (f.from_.toString = user.toString)) then
            (⟨400, "You have already provided feedback for this swap"⟩, swaps, users)
          else
            match body.rating.cast with
            | none => (serverError, swaps, users)
            | some rating =>
              if validMaxlength 500 (some (commentOrEmpty body.comment)) then
                let entry : SwapFeedback := ⟨user, rating, commentOrEmpty body.comment, now⟩
                let swaps1 := writeBack swaps
                  { swap with feedback := swap.feedback ++ [entry], updatedAt := now }
                match rateTarget users swap user rating body.comment now with
                | none => (serverError, swaps1, users)
                | some users1 => (⟨200, "Feedback submitted successfully"⟩, swaps1, users1)
              else (serverError, swaps, users)

/-! ## Admin routes on swaps (adminRoutes.js, lines 119-156 and 248-288) -/

/-- The source's `adminNote || "Moderated by admin"`. -/
def moderateNote (adminNote : Option String) : String :=
  if truthy adminNote then adminNote.getD "" else "Moderated by admin"

/-- Lines 133-138 of adminRoutes.js: the assignments made before `save`. -/
def moderateAssign (swap : SwapRequest) (body : UpdateBody) (now : Nat) : SwapRequest :=
  let s1 := { swap with status := body.status, adminNote := some (moderateNote body.adminNote) }
  if body.status = some "rejected" then { s1 with rejectedAt := some now } else s1

/-- The handler of `PUT /admin/swaps/:id/moderate`, which runs behind
`adminAuth`. -/
def moderateSwap (swaps : List SwapRequest) (swapId : String) (body : UpdateBody)
    (now : Nat) : Response × List SwapRequest :=
  if ¬ (body.status = some "rejected" ∨ body.status = some "cancelled") then
    (⟨400, "Admin can only reject or cancel swap requests"⟩, swaps)
  else
    match castObjectId swapId with
    | none => (serverError, swaps)
    | some id =>
      match findById swaps id with
      | none => (⟨404, "Swap request not found"⟩, swaps)
      | some swap =>
        if validMaxlength 500 (some (moderateNote body.adminNote)) then
          (⟨200, "Swap request " ++ templateText body.status ++ " by admin"⟩,
            writeBack swaps { moderateAssign swap body now with updatedAt := now })
        else (serverError, swaps)

/-- The branch `type === "swap"` of `DELETE /admin/content/:type/:id`:
`findByIdAndUpdate` sets `status` and `adminNote` on the stored document
without running validators. -/
def adminRemoveSwap (swaps : List SwapRequest) (id : String) (reason : Option String)
    (now : Nat) : Response × List SwapRequest :=
  match castObjectId id with
  | none => (serverError, swaps)
  | some oid =>
    match swaps.find? (fun d => decide (d._id = oid)) with
    | none => (⟨404, "Content not found"⟩, swaps)
    | some d =>
      let note := if truthy reason then reason.getD ""
        else "Removed for violating platform policies"
      (⟨200, "swap content moderated successfully"⟩,
        writeBack swaps
          { d with status := some "cancelled", adminNote := some note, updatedAt := now })

/-- The swap collections that the routes writing swaps can produce from an empty
collection, whatever the users collection is at each request. -/
inductive Reachable : List SwapRequest → Prop
  | empty : Reachable []
  | create {swaps} (users : List User) (user : ObjectId) (body : CreateBody)
      (newId : ObjectId) (now : Nat) :
      Reachable swaps → Reachable (postSwap users swaps user body newId now).2
  | transition {swaps} (user : ObjectId) (swapId : String) (body : UpdateBody) (now : Nat) :
      Reachable swaps → Reachable (putSwap swaps user swapId body now).2
  | delete {swaps} (user : ObjectId) (swapId : String) :
      Reachable swaps → Reachable (deleteSwap swaps user swapId).2
  | feedback {swaps} (users : List User) (user : ObjectId) (swapId : String)
      (body : FeedbackBody) (now : Nat) :
      Reachable swaps → Reachable (postFeedback swaps users user swapId body now).2.1
  | moderate {swaps} (swapId : String) (body : UpdateBody) (now : Nat) :
      Reachable swaps → Reachable (moderateSwap swaps swapId body now).2
  | remove {swaps} (id : String) (reason : Option String) (now : Nat) :
      Reachable swaps → Reachable (adminRemoveSwap swaps id reason now).2

/-! ## `POST /users/:id/feedback` (userRoutes.js, lines 223-274) -/

/-- The body of `POST /users/:id/feedback`: `{ rating, message }`. -/
structure RatingBody where
  rating : JsRating
  message : Option String
  deriving DecidableEq

/-- The handler of `POST /users/:id/feedback`. -/
def recordRating (users : List User) (user : ObjectId) (targetUserId : String)
    (body : RatingBody) (now : Nat) : Response × List User :=
  if body.rating.falsy || !truthy body.message then
    (⟨400, "Rating and message are required"⟩, users)
  else if body.rating.outOfRange then
    (⟨400, "Rating must be between 1 and 5"⟩, users)
  else if user.toString = targetUserId then
    (⟨400, "You cannot rate yourself"⟩, users)
  else
    match castObjectId targetUserId with
    | none => (serverError, users)
    | some id =>
      match findUserById users id with
      | none => (⟨404, "User not found"⟩, users)
      | some target =>
        if target.feedback.any (fun f => decide (f.from_.toString = user.toString)) then
          (⟨400, "You have already provided feedback for this user"⟩, users)
        else
          match body.rating.cast with
          | none => (serverError, users)
          | some rating =>
            let entry : UserFeedback := ⟨user, body.message.getD "", rating, now⟩
            let rated := updateRating { target with feedback := target.feedback ++ [entry] }
              rating
            if ratedUserValid rated entry then
              (⟨200, "Feedback added successfully"⟩, writeBackUser users rated)
            else (serverError, users)

/-- The user collections that `POST /users/:id/feedback` and
`POST /swaps/:id/feedback` can produce from freshly registered users (rating 0,
ratingCount 0, no feedback), whatever the swaps collection is at each request. -/
inductive ReachableUsers : List User → Prop
  | fresh (users : List User) :
      (∀ u ∈ users, u.rating = 0 ∧ u.ratingCount = 0 ∧ u.feedback = []) →
      ReachableUsers users
  | record {users} (user : ObjectId) (targetUserId : String) (body : RatingBody) (now : Nat) :
      ReachableUsers users → ReachableUsers (recordRating users user targetUserId body now).2
  | attach {users} (swaps : List SwapRequest) (user : ObjectId) (swapId : String)
      (body : FeedbackBody) (now : Nat) :
      ReachableUsers users → ReachableUsers (postFeedback swaps users user swapId body now).2.2

/-- One rating was recorded between `users` and `users'`: a stored user got one
more feedback entry, `updateRating` ran with the entry's rating, and the save
passed validation. -/
def RatingRecorded (users users' : List User) : Prop :=
  ∃ (tid : ObjectId) (tu : User) (entry : UserFeedback),
    findUserById users tid = some tu ∧
    ratedUserValid
      (updateRating { tu with feedback := tu.feedback ++ [entry] } entry.rating) entry = true ∧
    users' = writeBackUser users
      (updateRating { tu with feedback := tu.feedback ++ [entry] } entry.rating)

/-- Lines 224-244 of the handler of `POST /users/:id/feedback`: the checks on
the request and `await User.findById(targetUserId)`. `Except.error r` is the
response returned up to there; `Except.ok target` is the document as it was
read, with which the handler goes on. -/
def recordRatingLoad (users : List User) (user : ObjectId) (targetUserId : String)
    (body : RatingBody) : Except Response User :=
  if body.rating.falsy || !truthy body.message then
    .error ⟨400, "Rating and message are required"⟩
  else if body.rating.outOfRange then
    .error ⟨400, "Rating must be between 1 and 5"⟩
  else if user.toString = targetUserId then
    .error ⟨400, "You cannot rate yourself"⟩
  else
    match castObjectId targetUserId with
    | none => .error serverError
    | some id =>
      match findUserById users id with
      | none => .error ⟨404, "User not found"⟩
      | some target => .ok target

/-- Lines 246-270 of the same handler, from the loaded document on: the
duplicate test, the push and the assignments of `updateRating` work on `target`,
the document as it was read, and `await this.save()` writes it to `users`, the
collection as it is when the write arrives. -/
def recordRatingStore (users : List User) (user : ObjectId) (body : RatingBody) (now : Nat)
    (target : User) : Response × List User :=
  if target.feedback.any (fun f => decide (f.from_.toString = user.toString)) then
    (⟨400, "You have already provided feedback for this user"⟩, users)
  else
    match body.rating.cast with
    | none => (serverError, users)
    | some rating =>
      let entry : UserFeedback := ⟨user, body.message.getD "", rating, now⟩
      let rated := updateRating { target with feedback := target.feedback ++ [entry] }
        rating
      if ratedUserValid rated entry then
        (⟨200, "Feedback added successfully"⟩, writeBackUser users rated)
      else (serverError, users)

/-! ## `GET /users/:id` (userRoutes.js, lines 118-140) -/

/-- The handler of `GET /users/:id`, given what `req.user` holds (`none` when no
middleware has set it): the response and the document sent, without
`passwordHash`. -/
def getUserHandler (users : List User) (reqUser : Option ObjectId) (id : String) :
    Response × Option User :=
  match castObjectId id with
  | none => (serverError, none)
  | some oid =>
    match findUserById users oid with
    | none => (⟨404, "User not found"⟩, none)
    | some u =>
      if u.profileType = "private" ∧
          (reqUser = none ∨ reqUser.map ObjectId.toString ≠ some u._id.toString) then
        (⟨403, "Profile is private"⟩, none)
      else (⟨200, ""⟩, some { u with passwordHash := "" })

/-- The route as it is mounted: `router.get("/:id", handler)` has no `auth`
middleware and `server.js` installs none, so `req.user` is never set, whatever
token the request carries. -/
def getUser (users : List User) (id : String) : Response × Option User :=
  getUserHandler users none id

/-! ## `PUT /users/profile` and `PUT /users/:id` (userRoutes.js, lines 142-221) -/

/-- A value of a profile field in a request body: a string or an array of
strings. -/
inductive JsField where
  | str (s : String)
  | strs (l : List String)
  deriving DecidableEq

/-- The source's `allowedUpdates`. -/
def allowedUpdates : List String :=
  ["name", "location", "profilePhoto", "skillsOffered", "skillsWanted", "availability",
    "profileType"]

/-- The `enum` of `userSchema.availability`. -/
def availabilityEnum : List String := ["weekends", "evenings", "weekdays", "flexible"]

/-- The `enum` of `userSchema.profileType`. -/
def profileTypeEnum : List String := ["public", "private"]

/-- The cast of a value for an array-of-strings path (a single string becomes
a one-element array), with `trim` and `maxlength: 50` on every element. -/
def castSkills : JsField → Option (List String)
  | .str s => if jsLength (trim s) ≤ 50 then some [trim s] else none
  | .strs l => if l.all (fun x => decide (jsLength (trim x) ≤ 50)) then some (l.map trim)
      else none

/-- What `findByIdAndUpdate` with `runValidators: true` does with one entry of
`updates`: the cast, the setters and the validators of the path. `none` is a
cast or validation error. -/
def castProfileUpdate (key : String) (v : JsField) : Option (User → User) :=
  if key = "name" then
    match v with
    | .str s =>
      if 2 ≤ jsLength (trim s) ∧ jsLength (trim s) ≤ 50 then
        some (fun u => { u with name := trim s })
      else none
    | .strs _ => none
  else if key = "location" then
    match v with
    | .str s =>
      if jsLength (trim s) ≤ 100 then some (fun u => { u with location := some (trim s) })
      else none
    | .strs _ => none
  else if key = "profilePhoto" then
    match v with
    | .str s => some (fun u => { u with profilePhoto := some s })
    | .strs _ => none
  else if key = "skillsOffered" then
    (castSkills v).map (fun l => fun u => { u with skillsOffered := l })
  else if key = "skillsWanted" then
    (castSkills v).map (fun l => fun u => { u with skillsWanted := l })
  else if key = "availability" then
    match v with
    | .str s =>
      if s ∈ availabilityEnum then some (fun u => { u with availability := s }) else none
    | .strs _ => none
  else if key = "profileType" then
    match v with
    | .str s =>
      if s ∈ profileTypeEnum then some (fun u => { u with profileType := s }) else none
    | .strs _ => none
  else some id

/-- All entries of `updates`, in order; `none` when one of them is refused. -/
def castProfileUpdates : List (String × JsField) → Option (User → User)
  | [] => some id
  | (key, v) :: rest =>
    match castProfileUpdate key v, castProfileUpdates rest with
    | some f, some g => some (g ∘ f)
    | _, _ => none

/-- Lines 146-162: the keys of the body that are in `allowedUpdates` are passed
to `findByIdAndUpdate(userId, updates, { new: true, runValidators: true })`. -/
def updateProfile (users : List User) (userId : ObjectId) (body : List (String × JsField)) :
    Response × List User :=
  let updates := body.filter (fun kv => decide (kv.1 ∈ allowedUpdates))
  match castProfileUpdates updates with
  | none => (serverError, users)
  | some f =>
    match findUserById users userId with
    | none => (⟨404, "User not found"⟩, users)
    | some _ =>
      (⟨200, "Profile updated successfully"⟩,
        users.map (fun u => if u._id = userId then f u else u))

/-- The handler of `PUT /users/profile`. -/
def putProfile (users : List User) (user : ObjectId) (body : List (String × JsField)) :
    Response × List User :=
  updateProfile users user body

/-- The handler of `PUT /users/:id`. -/
def putUser (users : List User) (user : ObjectId) (userId : String)
    (body : List (String × JsField)) : Response × List User :=
  if user.toString ≠ userId then (⟨403, "You can only update your own profile"⟩, users)
  else
    match castObjectId userId with
    | none => (serverError, users)
    | some id => updateProfile users id body

/-! ## Admin routes on users (adminRoutes.js, lines 53-80 and 248-288) -/

/-- The handler of `PUT /admin/users/:id/status`, behind `adminAuth`. The body
field `isActive` is a boolean or absent; an absent value unsets the path, which
then reads as the schema default `true`. -/
def adminSetUserStatus (users : List User) (userId : String) (isActive : Option Bool) :
    Response × List User :=
  match castObjectId userId with
  | none => (serverError, users)
  | some id =>
    match findUserById users id with
    | none => (⟨404, "User not found"⟩, users)
    | some u =>
      if u.role = "admin" then (⟨400, "Cannot modify admin user status"⟩, users)
      else
        (⟨200, "User " ++ (if isActive = some true then "activated" else "deactivated") ++
            " successfully"⟩,
          writeBackUser users { u with isActive := isActive.getD true })

/-- The branch `type === "user"` of `DELETE /admin/content/:type/:id`:
`findByIdAndUpdate(id, { isActive: false })`. -/
def adminRemoveUser (users : List User) (id : String) : Response × List User :=
  match castObjectId id with
  | none => (serverError, users)
  | some oid =>
    match findUserById users oid with
    | none => (⟨404, "Content not found"⟩, users)
    | some _ =>
      (⟨200, "user content moderated successfully"⟩,
        users.map (fun u => if u._id = oid then { u with isActive := false } else u))

/-! ## Sample data -/

/-- Sample user id: the sender of the sample swap. -/
def aliceId : ObjectId := ⟨"64b7f0c2a1d3e4f5a6b7c8d9"⟩

/-- Sample user id: the recipient of the sample swap. -/
def bobId : ObjectId := ⟨"64b7f0c2a1d3e4f5a6b7c8da"⟩

/-- Sample user id: a user who takes no part in the sample swap. -/
def carolId : ObjectId := ⟨"64b7f0c2a1d3e4f5a6b7c8db"⟩

/-- The id of the sample swap. -/
def swapId1 : ObjectId := ⟨"64b7f0c2a1d3e4f5a6b7c8e0"⟩

/-- A swap from `aliceId` to `bobId`, created at time 1, in the given status. -/
def sampleSwap (status : String) : SwapRequest :=
  { _id := swapId1
    fromUser := aliceId
    toUser := bobId
    offeredSkill := "React"
    wantedSkill := "Python"
    status := some status
    message := none
    adminNote := none
    completedAt := none
    rejectedAt := none
    acceptedAt := none
    feedback := []
    createdAt := 1
    updatedAt := 1 }

/-- The sample swap while `pending`. -/
def pendingSwap : SwapRequest := sampleSwap "pending"

/-- The sample swap after the recipient accepted it at time 3. -/
def acceptedSwap : SwapRequest :=
  { sampleSwap "accepted" with acceptedAt := some 3, updatedAt := 3 }

/-- The sample swap after the recipient rejected it at time 3. -/
def rejectedSwap : SwapRequest :=
  { sampleSwap "rejected" with rejectedAt := some 3, updatedAt := 3 }

/-- The sample swap, accepted at time 3 and completed at time 5. -/
def completedSwap : SwapRequest :=
  { sampleSwap "completed" with acceptedAt := some 3, completedAt := some 5, updatedAt := 5 }

/-- A freshly registered user with the schema defaults. -/
def sampleUser (id : ObjectId) (isActive : Bool) : User :=
  { _id := id
    name := "Sample"
    email := "sample@example.com"
    passwordHash := "hash"
    location := none
    profilePhoto := none
    skillsOffered := []
    skillsWanted := []
    availability := "flexible"
    profileType := "public"
    role := "user"
    rating := 0
    ratingCount := 0
    feedback := []
    isActive := isActive }

/-- The two participants of the sample swap, both active, as registered. -/
def sampleUsers : List User := [sampleUser aliceId true, sampleUser bobId true]

/-- A registered user who made the profile private. -/
def privateUser (id : ObjectId) : User :=
  { sampleUser id true with profileType := "private" }

/-- An active user with the role `admin`. -/
def adminUser (id : ObjectId) : User :=
  { sampleUser id true with role := "admin" }

/-- The id given to a second swap. -/
def swapId2 : ObjectId := ⟨"64b7f0c2a1d3e4f5a6b7c8e1"⟩

/-- Three registered users, all active. -/
def threeUsers : List User :=
  [sampleUser aliceId true, sampleUser bobId true, sampleUser carolId true]

/-- A string of 101 characters. -/
def longSkill : String := String.mk (List.replicate 101 'x')

/-- A string of 501 characters. -/
def longNote : String := String.mk (List.replicate 501 'x')

/-! ## Lemmas on the store -/

theorem ObjectId.toString_ne {a b : ObjectId} (h : a ≠ b) : a.toString ≠ b.toString := by
  intro hab
  apply h
  cases a
  cases b
  simpa [ObjectId.toString] using hab

theorem findById_id {swaps : List SwapRequest} {id : ObjectId} {swap : SwapRequest}
    (h : findById swaps id = some swap) : swap._id = id := by
  unfold findById at h
  cases hf : swaps.find? (fun d => decide (d._id = id)) with
  | none => simp [hf] at h
  | some d =>
    have hd := List.find?_some hf
    simp only [hf, Option.map_some', Option.some.injEq] at h
    subst h
    simpa [hydrate] using hd

theorem find?_writeBack (swaps : List SwapRequest) (doc : SwapRequest) :
    (writeBack swaps doc).find? (fun d => decide (d._id = doc._id)) =
      (swaps.find? (fun d => decide (d._id = doc._id))).map (fun _ => doc) := by
  unfold writeBack
  induction swaps with
  | nil => rfl
  | cons d ds ih =>
    by_cases hd : d._id = doc._id
    · simp [hd]
    · rw [List.map_cons, if_neg hd, List.find?_cons_of_neg _ (by simpa using hd),
        List.find?_cons_of_neg _ (by simpa using hd)]
      exact ih

theorem findById_writeBack {swaps : List SwapRequest} {id : ObjectId} {swap doc : SwapRequest}
    (h : findById swaps id = some swap) (hdoc : doc._id = id) :
    findById (writeBack swaps doc) id = some (hydrate doc) := by
  subst hdoc
  unfold findById at h ⊢
  rw [find?_writeBack]
  cases hf : swaps.find? (fun d => decide (d._id = doc._id)) with
  | none => simp [hf] at h
  | some d => rfl

theorem putSwapAssign_status (swap : SwapRequest) (body : UpdateBody) (now : Nat) :
    (putSwapAssign swap body now).status = body.status := by
  unfold putSwapAssign
  simp only []
  split_ifs <;> rfl

theorem putSwapAssign_acceptedAt (swap : SwapRequest) (body : UpdateBody) (now : Nat)
    (h : body.status = some "accepted") :
    (putSwapAssign swap body now).acceptedAt = some now := by
  unfold putSwapAssign
  simp only [h, if_true]

theorem putSwapAssign_rejectedAt (swap : SwapRequest) (body : UpdateBody) (now : Nat)
    (h : body.status = some "rejected") :
    (putSwapAssign swap body now).rejectedAt = some now := by
  unfold putSwapAssign
  rw [h, if_neg (by decide), if_pos rfl]

theorem jsLength_longNote : jsLength longNote = 501 := by
  show ((List.replicate 501 'x').map (fun c => if c.toNat < 65536 then 1 else 2)).sum = 501
  rw [List.map_replicate, List.sum_replicate]
  decide

theorem putSwapAssign_id (swap : SwapRequest) (body : UpdateBody) (now : Nat) :
    (putSwapAssign swap body now)._id = swap._id := by
  unfold putSwapAssign
  simp only []
  split_ifs <;> rfl

/-! ## `PUT /swaps/:id`: the current status is never read -/

/-- C1 (the code departs from the claim): `PUT /swaps/:id` does not look at the
current status. On a `rejected` swap the recipient's request `accepted` is
answered 200 and the swap becomes `accepted`, and on a `pending` swap the
sender's request `completed` is answered 200 and the swap becomes `completed`. -/
theorem putSwap_ignores_current_status :
    putSwap [rejectedSwap] bobId swapId1.toString ⟨some "accepted", none⟩ 7 =
        (⟨200, "Swap request accepted successfully"⟩,
          [{ rejectedSwap with
              status := some "accepted", acceptedAt := some 7, updatedAt := 7 }]) ∧
      putSwap [pendingSwap] aliceId swapId1.toString ⟨some "completed", none⟩ 7 =
        (⟨200, "Swap request completed successfully"⟩,
          [{ pendingSwap with
              status := some "completed", completedAt := some 7, updatedAt := 7 }]) := by
  constructor <;> decide

/-- C2 (the code departs from the claim): a requested status outside
`accepted`, `rejected`, `cancelled`, `completed` is never answered 400. The
status `pending`, sent by a user who takes no part in the swap, is answered 200
and resets an `accepted` swap to `pending`; a string outside the enumeration is
answered 500. -/
theorem putSwap_other_status_not_rejected :
    putSwap [acceptedSwap] carolId swapId1.toString ⟨some "pending", none⟩ 7 =
        (⟨200, "Swap request pending successfully"⟩,
          [{ acceptedSwap with status := some "pending", updatedAt := 7 }]) ∧
      putSwap [acceptedSwap] bobId swapId1.toString ⟨some "archived", none⟩ 7 =
        (serverError, [acceptedSwap]) := by
  constructor <;> decide

/-- C3 (the code departs from the claim): a user who is neither sender nor
recipient changes a swap through `PUT /swaps/:id`: with the body
`{status: "pending", adminNote: "reopened"}` a `completed` swap gets status
`pending`, that admin note and a new `updatedAt`. -/
theorem putSwap_stranger_changes_swap :
    putSwap [completedSwap] carolId swapId1.toString
        ⟨some "pending", some "reopened"⟩ 9 =
      (⟨200, "Swap request pending successfully"⟩,
        [{ completedSwap with
            status := some "pending", adminNote := some "reopened", updatedAt := 9 }]) ∧
    carolId ≠ completedSwap.fromUser ∧ carolId ≠ completedSwap.toUser := by
  refine ⟨?_, ?_, ?_⟩ <;> decide

/-! ## `PUT /swaps/:id`: who may ask for which status -/

/-- C4: on an existing swap, a request for `accepted` or `rejected` by anyone
but the swap's `toUser` is answered 403 and the store is unchanged. -/
theorem putSwap_accept_reject_forbidden (swaps : List SwapRequest) (user : ObjectId)
    (swapId : String) (id : ObjectId) (swap : SwapRequest) (body : UpdateBody) (now : Nat)
    (hid : castObjectId swapId = some id) (hfind : findById swaps id = some swap)
    (hst : body.status = some "accepted" ∨ body.status = some "rejected")
    (hne : user ≠ swap.toUser) :
    putSwap swaps user swapId body now =
      (⟨403, "Only the recipient can accept or reject this request"⟩, swaps) := by
  have hs : user.toString ≠ swap.toUser.toString := ObjectId.toString_ne hne
  have href : putSwapRefusal user swap body.status =
      some ⟨403, "Only the recipient can accept or reject this request"⟩ := by
    unfold putSwapRefusal
    rw [if_pos hst, if_pos hs]
  unfold putSwap
  simp only [hid, hfind, href]

/-- Witness for C4: the sender of the sample swap asks for `accepted`. -/
theorem putSwap_accept_reject_forbidden_witness :
    putSwap [pendingSwap] aliceId swapId1.toString ⟨some "accepted", none⟩ 7 =
      (⟨403, "Only the recipient can accept or reject this request"⟩,
        [pendingSwap]) :=
  putSwap_accept_reject_forbidden [pendingSwap] aliceId swapId1.toString swapId1
    pendingSwap ⟨some "accepted", none⟩ 7 (by decide) (by decide)
    (Or.inl rfl) (by decide)

/-- C6: on an existing swap, a request for `cancelled` by anyone but the swap's
`fromUser` is answered 403 and the store is unchanged. -/
theorem putSwap_cancel_forbidden (swaps : List SwapRequest) (user : ObjectId)
    (swapId : String) (id : ObjectId) (swap : SwapRequest) (body : UpdateBody) (now : Nat)
    (hid : castObjectId swapId = some id) (hfind : findById swaps id = some swap)
    (hst : body.status = some "cancelled") (hne : user ≠ swap.fromUser) :
    putSwap swaps user swapId body now =
      (⟨403, "Only the sender can cancel this request"⟩, swaps) := by
  have hs : user.toString ≠ swap.fromUser.toString := ObjectId.toString_ne hne
  have href : putSwapRefusal user swap body.status =
      some ⟨403, "Only the sender can cancel this request"⟩ := by
    unfold putSwapRefusal
    rw [hst, if_neg (by decide), if_pos rfl, if_pos hs]
  unfold putSwap
  simp only [hid, hfind, href]

/-- Witness for C6: the recipient of the sample swap asks for `cancelled`. -/
theorem putSwap_cancel_forbidden_witness :
    putSwap [pendingSwap] bobId swapId1.toString ⟨some "cancelled", none⟩ 7 =
      (⟨403, "Only the sender can cancel this request"⟩, [pendingSwap]) :=
  putSwap_cancel_forbidden [pendingSwap] bobId swapId1.toString swapId1
    pendingSwap ⟨some "cancelled", none⟩ 7 (by decide) (by decide) rfl (by decide)

/-- C7: on an existing swap, a request for `completed` by a user who is neither
`fromUser` nor `toUser` is answered 403 and the store is unchanged; a request
for `completed` by either participant is not answered 403. -/
theorem putSwap_complete_forbidden_iff_stranger (swaps : List SwapRequest) (user : ObjectId)
    (swapId : String) (id : ObjectId) (swap : SwapRequest) (body : UpdateBody) (now : Nat)
    (hid : castObjectId swapId = some id) (hfind : findById swaps id = some swap)
    (hst : body.status = some "completed") :
    (user ≠ swap.fromUser ∧ user ≠ swap.toUser →
      putSwap swaps user swapId body now =
        (⟨403, "Only participants can mark the swap as completed"⟩, swaps)) ∧
    (user = swap.fromUser ∨ user = swap.toUser →
      (putSwap swaps user swapId body now).1.code ≠ 403) := by
  constructor
  · rintro ⟨hf, ht⟩
    have href : putSwapRefusal user swap body.status =
        some ⟨403, "Only participants can mark the swap as completed"⟩ := by
      unfold putSwapRefusal
      rw [hst, if_neg (by decide), if_neg (by decide), if_pos rfl,
        if_pos ⟨ObjectId.toString_ne hf, ObjectId.toString_ne ht⟩]
    unfold putSwap
    simp only [hid, hfind, href]
  · intro hpart
    have href : putSwapRefusal user swap body.status = none := by
      unfold putSwapRefusal
      rw [hst, if_neg (by decide), if_neg (by decide), if_pos rfl, if_neg]
      rintro ⟨hf, ht⟩
      rcases hpart with h | h
      · exact hf (by rw [h])
      · exact ht (by rw [h])
    unfold putSwap
    simp only [hid, hfind, href]
    split_ifs <;> simp [serverError]

/-- Witness for C7: on the sample swap a third user is refused with 403 and the
sender is not. -/
theorem putSwap_complete_forbidden_iff_stranger_witness :
    putSwap [acceptedSwap] carolId swapId1.toString ⟨some "completed", none⟩ 7 =
        (⟨403, "Only participants can mark the swap as completed"⟩,
          [acceptedSwap]) ∧
      (putSwap [acceptedSwap] aliceId swapId1.toString
        ⟨some "completed", none⟩ 7).1.code ≠ 403 :=
  ⟨(putSwap_complete_forbidden_iff_stranger [acceptedSwap] carolId swapId1.toString
      swapId1 acceptedSwap ⟨some "completed", none⟩ 7 (by decide) (by decide)
      rfl).1 ⟨by decide, by decide⟩,
    (putSwap_complete_forbidden_iff_stranger [acceptedSwap] aliceId swapId1.toString
      swapId1 acceptedSwap ⟨some "completed", none⟩ 7 (by decide) (by decide)
      rfl).2 (Or.inl rfl)⟩

/-! ## `PUT /swaps/:id`: accept and reject by the recipient -/

/-- C5 as stated fails: on a `pending` swap the recipient's request `accepted`
that carries an admin note of 501 characters is answered 500 and the swap stays
`pending` with no `acceptedAt`. -/
theorem putSwap_accept_long_note_fails :
    pendingSwap.status = some "pending" ∧
      bobId = pendingSwap.toUser ∧
      putSwap [pendingSwap] bobId swapId1.toString
        ⟨some "accepted", some longNote⟩ 7 = (serverError, [pendingSwap]) := by
  refine ⟨rfl, rfl, ?_⟩
  have hid : castObjectId swapId1.toString = some swapId1 := by decide
  have hfind : findById [pendingSwap] swapId1 = some pendingSwap := by
    decide
  have href : putSwapRefusal bobId pendingSwap (some "accepted") = none := by
    decide
  have hvalid : putSwapValid ⟨some "accepted", some longNote⟩ = false := by
    have hne : longNote ≠ "" := by
      intro h
      have := jsLength_longNote
      rw [h] at this
      exact absurd this (by decide)
    simp [putSwapValid, truthy, validMaxlength, jsLength_longNote, hne]
  unfold putSwap
  simp only [hid, hfind, href, hvalid]
  rfl

/-- C5, amended: on a swap whose status is `pending`, a request for `accepted`
or `rejected` by the swap's `toUser` that carries no admin note, or one of at
most 500 characters, is answered 200; afterwards the stored swap has the
requested status, and `acceptedAt` (for `accepted`) or `rejectedAt` (for
`rejected`) is the time of the call. -/
theorem putSwap_accept_reject_by_recipient (swaps : List SwapRequest) (user : ObjectId)
    (swapId : String) (id : ObjectId) (swap : SwapRequest) (body : UpdateBody) (now : Nat)
    (hid : castObjectId swapId = some id) (hfind : findById swaps id = some swap)
    (_hpending : swap.status = some "pending")
    (hst : body.status = some "accepted" ∨ body.status = some "rejected")
    (huser : user = swap.toUser)
    (hnote : truthy body.adminNote = true → validMaxlength 500 body.adminNote = true) :
    (putSwap swaps user swapId body now).1.code = 200 ∧
    ∃ doc, findById (putSwap swaps user swapId body now).2 id = some doc ∧
      doc.status = body.status ∧
      (body.status = some "accepted" → doc.acceptedAt = some now) ∧
      (body.status = some "rejected" → doc.rejectedAt = some now) := by
  have href : putSwapRefusal user swap body.status = none := by
    unfold putSwapRefusal
    rw [if_pos hst, if_neg (by simp [huser])]
  have hvalid : putSwapValid body = true := by
    unfold putSwapValid
    have hvs : validStatus body.status = true := by
      rcases hst with h | h <;> rw [h] <;> decide
    rw [hvs]
    by_cases hn : truthy body.adminNote = true
    · simp [hn, hnote hn]
    · simp [hn]
  have hres : putSwap swaps user swapId body now =
      (⟨200, "Swap request " ++ templateText body.status ++ " successfully"⟩,
        writeBack swaps { putSwapAssign swap body now with updatedAt := now }) := by
    unfold putSwap
    simp only [hid, hfind, href, hvalid, if_true]
  rw [hres]
  refine ⟨rfl, hydrate { putSwapAssign swap body now with updatedAt := now }, ?_, ?_, ?_, ?_⟩
  · exact findById_writeBack hfind (by
      show (putSwapAssign swap body now)._id = id
      rw [putSwapAssign_id, findById_id hfind])
  · show some ((putSwapAssign swap body now).status.getD "pending") = body.status
    rw [putSwapAssign_status]
    rcases hst with h | h <;> rw [h] <;> rfl
  · intro h
    exact putSwapAssign_acceptedAt swap body now h
  · intro h
    exact putSwapAssign_rejectedAt swap body now h

/-- Witness for C5, amended: the recipient of the sample swap accepts it at
time 7, with a short admin note. -/
theorem putSwap_accept_reject_by_recipient_witness :
    (putSwap [pendingSwap] bobId swapId1.toString
        ⟨some "accepted", some "ok"⟩ 7).1.code = 200 ∧
    ∃ doc, findById (putSwap [pendingSwap] bobId swapId1.toString
        ⟨some "accepted", some "ok"⟩ 7).2 swapId1 = some doc ∧
      doc.status = some "accepted" ∧
      (some "accepted" = some "accepted" → doc.acceptedAt = some 7) ∧
      (some "accepted" = some "rejected" → doc.rejectedAt = some 7) :=
  putSwap_accept_reject_by_recipient [pendingSwap] bobId swapId1.toString swapId1
    pendingSwap ⟨some "accepted", some "ok"⟩ 7 (by decide) (by decide) rfl
    (Or.inl rfl) rfl (fun _ => by decide)

/-! ## `POST /swaps` -/

theorem castObjectId_ne_empty {t : String} {rid : ObjectId} (h : castObjectId t = some rid) :
    t ≠ "" := by
  rintro rfl
  have hnone : castObjectId "" = none := by decide
  rw [hnone] at h
  cases h

theorem ne_empty_of_trim_ne_empty {s : String} (h : trim s ≠ "") : s ≠ "" := by
  rintro rfl
  exact h (by decide)

/-- C8 as stated fails: the sender of a stored `pending` swap repeats the same
request (recipient existing and active, both skills given) and is answered 400;
no swap is stored. -/
theorem postSwap_duplicate_refused :
    findUserById [sampleUser aliceId true, sampleUser bobId true] bobId =
        some (sampleUser bobId true) ∧
      (sampleUser bobId true).isActive = true ∧ aliceId ≠ bobId ∧
      postSwap [sampleUser aliceId true, sampleUser bobId true] [pendingSwap] aliceId
          ⟨some bobId.toString, some "React", some "Python", none⟩ carolId 7 =
        (⟨400, "You already have a pending request for these skills with this user"⟩,
          [pendingSwap]) := by
  refine ⟨?_, ?_, ?_, ?_⟩ <;> decide

/-- C8, amended: a Create request by a caller `user` whose `toUser` is the id
of an existing active user other than the caller, whose two skills are
non-empty after trimming and at most 100 characters long, whose message (if
any) is at most 500 characters long after trimming, and for which the store
holds no `pending` swap with the same sender, recipient and skills, is answered
201; exactly one swap is added to the store and its status is `pending`. -/
theorem postSwap_creates_pending (users : List User) (swaps : List SwapRequest)
    (user : ObjectId) (body : CreateBody) (newId : ObjectId) (now : Nat)
    (t o w : String) (rid : ObjectId) (r : User)
    (ht : body.toUser = some t) (ho : body.offeredSkill = some o)
    (hw : body.wantedSkill = some w)
    (hcast : castObjectId t = some rid)
    (huser : castObjectId user.toString = some user) (hne : user ≠ rid)
    (hrec : findUserById users rid = some r) (hact : r.isActive = true)
    (hov : trim o ≠ "" ∧ jsLength (trim o) ≤ 100)
    (hwv : trim w ≠ "" ∧ jsLength (trim w) ≤ 100)
    (hmsg : validMaxlength 500 (body.message.map trim) = true)
    (hdup : ∀ d ∈ swaps, isPendingDuplicate user rid o w d = false) :
    postSwap users swaps user body newId now =
        (⟨201, "Swap request created successfully"⟩,
          swaps ++ [newSwapRequest newId user rid o w body.message now]) ∧
      (newSwapRequest newId user rid o w body.message now).status = some "pending" := by
  refine ⟨?_, rfl⟩
  have ht0 : t ≠ "" := castObjectId_ne_empty hcast
  have ho0 : o ≠ "" := ne_empty_of_trim_ne_empty hov.1
  have hw0 : w ≠ "" := ne_empty_of_trim_ne_empty hwv.1
  have hself : user.toString ≠ t := by
    intro h
    rw [h, hcast] at huser
    exact hne (Option.some.inj huser).symm
  have hnodup : (swaps.find? (isPendingDuplicate user rid o w)).isSome = false := by
    cases hf : swaps.find? (isPendingDuplicate user rid o w) with
    | none => rfl
    | some d =>
      have h1 := List.find?_some hf
      have h2 := hdup d (List.mem_of_find?_eq_some hf)
      rw [h2] at h1
      exact absurd h1 (by decide)
  have hvalid : newSwapValid (newSwapRequest newId user rid o w body.message now) = true := by
    have hom : validMaxlength 100 (some (trim o)) = true := by
      simp [validMaxlength, hov.2]
    have hwm : validMaxlength 100 (some (trim w)) = true := by
      simp [validMaxlength, hwv.2]
    have hnone : validMaxlength 500 none = true := rfl
    simp [newSwapValid, newSwapRequest, validRequired, validStatus, statusEnum,
      hov.1, hwv.1, hom, hwm, hmsg, hnone]
  unfold postSwap
  simp only [ht, ho, hw, truthy, Option.getD_some, hself, hcast, hrec, hact, hnodup, hvalid]
  simp [ht0, ho0, hw0]

/-- Witness for C8, amended: on a store with no swaps, the sample sender asks
the sample recipient for a swap. -/
theorem postSwap_creates_pending_witness :
    postSwap [sampleUser aliceId true, sampleUser bobId true] [] aliceId
        ⟨some bobId.toString, some " React ", some "Python", some "hello"⟩ swapId1 7 =
        (⟨201, "Swap request created successfully"⟩,
          [] ++ [newSwapRequest swapId1 aliceId bobId " React " "Python" (some "hello") 7]) ∧
      (newSwapRequest swapId1 aliceId bobId " React " "Python" (some "hello") 7).status =
        some "pending" :=
  postSwap_creates_pending [sampleUser aliceId true, sampleUser bobId true] [] aliceId
    ⟨some bobId.toString, some " React ", some "Python", some "hello"⟩ swapId1 7
    bobId.toString " React " "Python" bobId (sampleUser bobId true) rfl rfl rfl
    (by decide) (by decide) (by decide) (by decide) rfl (by decide) (by decide) (by decide)
    (by simp)

/-- A Create request whose `toUser` is exactly the text of `req.user._id` is
answered 400 and the store of swaps is unchanged. -/
theorem postSwap_self_refused (users : List User) (swaps : List SwapRequest)
    (user : ObjectId) (body : CreateBody) (newId : ObjectId) (now : Nat)
    (hself : body.toUser = some user.toString) :
    (postSwap users swaps user body newId now).1.code = 400 ∧
      (postSwap users swaps user body newId now).2 = swaps := by
  unfold postSwap
  by_cases h1 :
      (!truthy body.toUser || !truthy body.offeredSkill || !truthy body.wantedSkill) = true
  · rw [if_pos h1]
    exact ⟨rfl, rfl⟩
  · rw [if_neg h1]
    simp [hself]

/-- The sample sender names the text of the own id as recipient. -/
theorem postSwap_self_refused_witness :
    (postSwap [sampleUser aliceId true] [] aliceId
        ⟨some aliceId.toString, some "React", some "Python", none⟩ swapId1 7).1.code = 400 ∧
      (postSwap [sampleUser aliceId true] [] aliceId
        ⟨some aliceId.toString, some "React", some "Python", none⟩ swapId1 7).2 = [] :=
  postSwap_self_refused [sampleUser aliceId true] [] aliceId
    ⟨some aliceId.toString, some "React", some "Python", none⟩ swapId1 7 rfl

/-- C10 (the code departs from the claim): the self-request check compares the
text of the caller's id with the request string. From a store with no swaps,
the caller whose id is `64b7f0c2a1d3e4f5a6b7c8d9` sends `toUser` as the same
digits in upper case; the strings differ, the recipient lookup finds the caller,
and a swap with `fromUser = toUser` is stored. -/
theorem postSwap_stores_self_swap :
    aliceId.toString ≠ "64B7F0C2A1D3E4F5A6B7C8D9" ∧
      castObjectId "64B7F0C2A1D3E4F5A6B7C8D9" = some aliceId ∧
      ∃ swap, postSwap [sampleUser aliceId true] [] aliceId
          ⟨some "64B7F0C2A1D3E4F5A6B7C8D9", some "React", some "Python", none⟩ swapId1 7 =
          (⟨201, "Swap request created successfully"⟩, [swap]) ∧
        swap.fromUser = aliceId ∧ swap.toUser = aliceId := by
  refine ⟨by decide, by decide,
    newSwapRequest swapId1 aliceId aliceId "React" "Python" none 7, by decide, rfl, rfl⟩

/-! ## `POST /swaps`: recipient and duplicate checks -/

/-- C11 as stated fails: the store holds a `pending` swap from the caller to a
recipient who has since been deactivated; the caller repeats the request and is
answered 404, not 400. -/
theorem postSwap_duplicate_inactive_recipient :
    pendingSwap ∈ [pendingSwap] ∧ pendingSwap.status = some "pending" ∧
      pendingSwap.fromUser = aliceId ∧ castObjectId bobId.toString = some pendingSwap.toUser ∧
      pendingSwap.offeredSkill = "React" ∧ pendingSwap.wantedSkill = "Python" ∧
      postSwap [sampleUser aliceId true, sampleUser bobId false] [pendingSwap] aliceId
          ⟨some bobId.toString, some "React", some "Python", none⟩ carolId 7 =
        (⟨404, "Recipient not found or inactive"⟩, [pendingSwap]) := by
  refine ⟨?_, ?_, ?_, ?_, ?_, ?_, ?_⟩ <;> decide

/-- C11, amended: when the store holds a swap with status `pending` and the
same fromUser, toUser, offeredSkill and wantedSkill (as the schema stores them,
trimmed), and toUser still names an existing active user, a Create request by
that fromUser with those values is answered 400 and adds no swap. -/
theorem postSwap_duplicate_pending (users : List User) (swaps : List SwapRequest)
    (user : ObjectId) (body : CreateBody) (newId : ObjectId) (now : Nat)
    (t o w : String) (rid : ObjectId) (r : User) (d : SwapRequest)
    (ht : body.toUser = some t) (ho : body.offeredSkill = some o)
    (hw : body.wantedSkill = some w) (hcast : castObjectId t = some rid)
    (hrec : findUserById users rid = some r) (hact : r.isActive = true)
    (hd : d ∈ swaps) (hstatus : d.status = some "pending")
    (hfrom : d.fromUser = user) (hto : d.toUser = rid)
    (hoff : d.offeredSkill = trim o) (hwant : d.wantedSkill = trim w) :
    (postSwap users swaps user body newId now).1.code = 400 ∧
      (postSwap users swaps user body newId now).2 = swaps := by
  have hdup : (swaps.find? (isPendingDuplicate user rid o w)).isSome = true := by
    rw [List.find?_isSome]
    exact ⟨d, hd, by simp [isPendingDuplicate, hstatus, hfrom, hto, hoff, hwant]⟩
  unfold postSwap
  by_cases h1 :
      (!truthy body.toUser || !truthy body.offeredSkill || !truthy body.wantedSkill) = true
  · rw [if_pos h1]
    exact ⟨rfl, rfl⟩
  · rw [if_neg h1]
    simp only [ht, ho, hw, Option.getD_some]
    by_cases h2 : user.toString = t
    · rw [if_pos h2]
      exact ⟨rfl, rfl⟩
    · rw [if_neg h2]
      simp only [hcast, hrec, hact, hdup]
      exact ⟨rfl, rfl⟩

/-- Witness for C11, amended: the sender of the stored pending sample swap
repeats it while the recipient is active. -/
theorem postSwap_duplicate_pending_witness :
    (postSwap [sampleUser aliceId true, sampleUser bobId true] [pendingSwap] aliceId
        ⟨some bobId.toString, some " React", some "Python", none⟩ carolId 7).1.code = 400 ∧
      (postSwap [sampleUser aliceId true, sampleUser bobId true] [pendingSwap] aliceId
        ⟨some bobId.toString, some " React", some "Python", none⟩ carolId 7).2 =
        [pendingSwap] :=
  postSwap_duplicate_pending [sampleUser aliceId true, sampleUser bobId true] [pendingSwap]
    aliceId ⟨some bobId.toString, some " React", some "Python", none⟩ carolId 7
    bobId.toString " React" "Python" bobId (sampleUser bobId true) pendingSwap rfl rfl rfl
    (by decide) (by decide) rfl (by decide) rfl rfl rfl (by decide) (by decide)

/-- C12 as stated fails: a Create request whose `toUser` names no stored user is
answered 404, not 400, and so is one whose `toUser` names an inactive user. -/
theorem postSwap_unknown_recipient_404 :
    findUserById [sampleUser aliceId true, sampleUser bobId false] carolId = none ∧
      postSwap [sampleUser aliceId true, sampleUser bobId false] [] aliceId
          ⟨some carolId.toString, some "React", some "Python", none⟩ swapId1 7 =
        (⟨404, "Recipient not found or inactive"⟩, []) ∧
      postSwap [sampleUser aliceId true, sampleUser bobId false] [] aliceId
          ⟨some bobId.toString, some "React", some "Python", none⟩ swapId1 7 =
        (⟨404, "Recipient not found or inactive"⟩, []) := by
  refine ⟨?_, ?_, ?_⟩ <;> decide

/-- C12, amended: a Create request with both skills given whose `toUser` is a
well-formed id, not the caller's own, that names no existing user or names an
inactive user, is answered 404 and the set of swaps is unchanged. -/
theorem postSwap_recipient_unavailable (users : List User) (swaps : List SwapRequest)
    (user : ObjectId) (body : CreateBody) (newId : ObjectId) (now : Nat)
    (t : String) (rid : ObjectId)
    (ht : body.toUser = some t) (hcast : castObjectId t = some rid)
    (ho : truthy body.offeredSkill = true) (hw : truthy body.wantedSkill = true)
    (hself : user.toString ≠ t)
    (hrec : findUserById users rid = none ∨
      ∃ r, findUserById users rid = some r ∧ r.isActive = false) :
    postSwap users swaps user body newId now =
      (⟨404, "Recipient not found or inactive"⟩, swaps) := by
  have ht0 : truthy body.toUser = true := by
    rw [ht]
    simp [truthy, castObjectId_ne_empty hcast]
  have hpresent :
      (!truthy body.toUser || !truthy body.offeredSkill || !truthy body.wantedSkill) = false := by
    rw [ht0, ho, hw]
    rfl
  unfold postSwap
  rw [hpresent]
  simp only [Bool.false_eq_true, if_false, ht, Option.getD_some, hself, hcast]
  rcases hrec with h | ⟨r, h, hr⟩
  · simp only [h]
  · simp only [h, hr, Bool.not_false, if_true]

/-- Witness for C12, amended: the sample sender names an inactive user. -/
theorem postSwap_recipient_unavailable_witness :
    postSwap [sampleUser aliceId true, sampleUser bobId false] [] aliceId
        ⟨some bobId.toString, some "React", some "Python", none⟩ swapId1 7 =
      (⟨404, "Recipient not found or inactive"⟩, []) :=
  postSwap_recipient_unavailable [sampleUser aliceId true, sampleUser bobId false] [] aliceId
    ⟨some bobId.toString, some "React", some "Python", none⟩ swapId1 7 bobId.toString bobId
    rfl (by decide) (by decide) (by decide) (by decide)
    (Or.inr ⟨sampleUser bobId false, by decide, rfl⟩)

/-! ## `PUT /swaps/:id`: what a successful request leaves alone -/

theorem putSwapRefusal_code {user : ObjectId} {swap : SwapRequest} {status : Option String}
    {r : Response} (h : putSwapRefusal user swap status = some r) : r.code = 403 := by
  unfold putSwapRefusal at h
  split_ifs at h <;> (cases h; rfl)

theorem putSwap_of_ok {swaps : List SwapRequest} {user : ObjectId} {swapId : String}
    {id : ObjectId} {swap : SwapRequest} {body : UpdateBody} {now : Nat}
    (hid : castObjectId swapId = some id) (hfind : findById swaps id = some swap)
    (hsucc : (putSwap swaps user swapId body now).1.code = 200) :
    (putSwap swaps user swapId body now).2 =
      writeBack swaps { putSwapAssign swap body now with updatedAt := now } := by
  unfold putSwap at hsucc ⊢
  simp only [hid, hfind] at hsucc ⊢
  cases href : putSwapRefusal user swap body.status with
  | some r =>
    simp only [href] at hsucc
    rw [putSwapRefusal_code href] at hsucc
    exact absurd hsucc (by decide)
  | none =>
    simp only [href] at hsucc ⊢
    by_cases hv : putSwapValid body = true
    · simp only [hv, if_true]
    · have hv0 : putSwapValid body = false := by simpa using hv
      simp [hv0, serverError] at hsucc

theorem putSwapAssign_frame (swap : SwapRequest) (body : UpdateBody) (now : Nat) :
    (putSwapAssign swap body now).fromUser = swap.fromUser ∧
    (putSwapAssign swap body now).toUser = swap.toUser ∧
    (putSwapAssign swap body now).offeredSkill = swap.offeredSkill ∧
    (putSwapAssign swap body now).wantedSkill = swap.wantedSkill ∧
    (putSwapAssign swap body now).message = swap.message ∧
    (putSwapAssign swap body now).feedback = swap.feedback := by
  unfold putSwapAssign
  simp only []
  split_ifs <;> exact ⟨rfl, rfl, rfl, rfl, rfl, rfl⟩

theorem putSwapAssign_times (swap : SwapRequest) (body : UpdateBody) (now : Nat) :
    (body.status ≠ some "accepted" →
      (putSwapAssign swap body now).acceptedAt = swap.acceptedAt) ∧
    (body.status ≠ some "rejected" →
      (putSwapAssign swap body now).rejectedAt = swap.rejectedAt) ∧
    (body.status ≠ some "completed" →
      (putSwapAssign swap body now).completedAt = swap.completedAt) := by
  unfold putSwapAssign
  simp only []
  refine ⟨fun h => ?_, fun h => ?_, fun h => ?_⟩ <;> split_ifs <;> first | rfl | contradiction

theorem putSwapAssign_adminNote (swap : SwapRequest) (body : UpdateBody) (now : Nat)
    (h : truthy body.adminNote = false) :
    (putSwapAssign swap body now).adminNote = swap.adminNote := by
  unfold putSwapAssign
  simp only [h, Bool.false_eq_true, if_false]
  split_ifs <;> rfl

/-- C13: after a successful Transition (answer 200) the stored swap differs from
the one before as follows: `acceptedAt`, `rejectedAt`, `completedAt` are each
unchanged unless the requested status is the matching one (so none changes for
`cancelled`); `fromUser`, `toUser`, `offeredSkill`, `wantedSkill`, `message` and
the feedback list are unchanged; `adminNote` is unchanged unless the request
supplies an admin note. -/
theorem putSwap_success_frame (swaps : List SwapRequest) (user : ObjectId)
    (swapId : String) (id : ObjectId) (swap : SwapRequest) (body : UpdateBody) (now : Nat)
    (hid : castObjectId swapId = some id) (hfind : findById swaps id = some swap)
    (hsucc : (putSwap swaps user swapId body now).1.code = 200) :
    ∃ doc, findById (putSwap swaps user swapId body now).2 id = some doc ∧
      (body.status ≠ some "accepted" → doc.acceptedAt = swap.acceptedAt) ∧
      (body.status ≠ some "rejected" → doc.rejectedAt = swap.rejectedAt) ∧
      (body.status ≠ some "completed" → doc.completedAt = swap.completedAt) ∧
      doc.fromUser = swap.fromUser ∧ doc.toUser = swap.toUser ∧
      doc.offeredSkill = swap.offeredSkill ∧ doc.wantedSkill = swap.wantedSkill ∧
      doc.message = swap.message ∧ doc.feedback = swap.feedback ∧
      (truthy body.adminNote = false → doc.adminNote = swap.adminNote) := by
  rw [putSwap_of_ok hid hfind hsucc]
  obtain ⟨h1, h2, h3, h4, h5, h6⟩ := putSwapAssign_frame swap body now
  obtain ⟨t1, t2, t3⟩ := putSwapAssign_times swap body now
  refine ⟨hydrate { putSwapAssign swap body now with updatedAt := now }, ?_,
    t1, t2, t3, h1, h2, h3, h4, h5, h6, putSwapAssign_adminNote swap body now⟩
  exact findById_writeBack hfind (by
    show (putSwapAssign swap body now)._id = id
    rw [putSwapAssign_id, findById_id hfind])

/-- Witness for C13: the sender cancels the pending sample swap. -/
theorem putSwap_success_frame_witness :
    ∃ doc, findById (putSwap [pendingSwap] aliceId swapId1.toString
        ⟨some "cancelled", none⟩ 7).2 swapId1 = some doc ∧
      (some "cancelled" ≠ some "accepted" → doc.acceptedAt = pendingSwap.acceptedAt) ∧
      (some "cancelled" ≠ some "rejected" → doc.rejectedAt = pendingSwap.rejectedAt) ∧
      (some "cancelled" ≠ some "completed" → doc.completedAt = pendingSwap.completedAt) ∧
      doc.fromUser = pendingSwap.fromUser ∧ doc.toUser = pendingSwap.toUser ∧
      doc.offeredSkill = pendingSwap.offeredSkill ∧
      doc.wantedSkill = pendingSwap.wantedSkill ∧
      doc.message = pendingSwap.message ∧ doc.feedback = pendingSwap.feedback ∧
      (truthy none = false → doc.adminNote = pendingSwap.adminNote) :=
  putSwap_success_frame [pendingSwap] aliceId swapId1.toString swapId1 pendingSwap
    ⟨some "cancelled", none⟩ 7 (by decide) (by decide) (by decide)

/-! ## `DELETE /swaps/:id` -/

theorem ObjectId.toString_inj {a b : ObjectId} : a.toString = b.toString ↔ a = b := by
  constructor
  · intro h
    by_contra hne
    exact ObjectId.toString_ne hne h
  · intro h
    rw [h]

theorem find?_of_findById {swaps : List SwapRequest} {id : ObjectId} {swap : SwapRequest}
    (h : findById swaps id = some swap) :
    ∃ d, swaps.find? (fun d => decide (d._id = id)) = some d ∧ hydrate d = swap := by
  unfold findById at h
  cases hf : swaps.find? (fun d => decide (d._id = id)) with
  | none => simp [hf] at h
  | some d =>
    refine ⟨d, rfl, ?_⟩
    simpa [hf] using h

/-- C14: Delete is answered 200 exactly when the swap exists, the caller is its
`fromUser` and its status is `pending`. On a 200 one stored swap with that id is
removed and the rest of the store is as before, in the same order; on any other
answer the store is unchanged; and Delete on an `accepted` swap by its
`fromUser` is answered 400. -/
theorem deleteSwap_spec (swaps : List SwapRequest) (user : ObjectId) (swapId : String) :
    ((deleteSwap swaps user swapId).1.code = 200 ↔
      ∃ id swap, castObjectId swapId = some id ∧ findById swaps id = some swap ∧
        user = swap.fromUser ∧ swap.status = some "pending") ∧
    ((deleteSwap swaps user swapId).1.code = 200 →
      ∃ id d l₁ l₂, castObjectId swapId = some id ∧ d._id = id ∧
        (∀ b ∈ l₁, b._id ≠ id) ∧ swaps = l₁ ++ d :: l₂ ∧
        (deleteSwap swaps user swapId).2 = l₁ ++ l₂) ∧
    ((deleteSwap swaps user swapId).1.code ≠ 200 → (deleteSwap swaps user swapId).2 = swaps) ∧
    (∀ id swap, castObjectId swapId = some id → findById swaps id = some swap →
      user = swap.fromUser → swap.status = some "accepted" →
      deleteSwap swaps user swapId = (⟨400, "Only pending requests can be deleted"⟩, swaps)) := by
  cases hid : castObjectId swapId with
  | none =>
    have hres : deleteSwap swaps user swapId = (serverError, swaps) := by
      unfold deleteSwap
      simp only [hid]
    rw [hres]
    refine ⟨⟨fun h => by simp [serverError] at h, ?_⟩, fun h => by simp [serverError] at h,
      fun _ => rfl, ?_⟩
    · rintro ⟨id0, swap0, h1, -⟩
      cases h1
    · intro id0 swap0 h1
      cases h1
  | some id =>
    cases hfind : findById swaps id with
    | none =>
      have hres : deleteSwap swaps user swapId = (⟨404, "Swap request not found"⟩, swaps) := by
        unfold deleteSwap
        simp only [hid, hfind]
      rw [hres]
      refine ⟨⟨fun h => by simp [serverError] at h, ?_⟩, fun h => by simp [serverError] at h,
        fun _ => rfl, ?_⟩
      · rintro ⟨id0, swap0, h1, h2, -⟩
        cases h1
        rw [hfind] at h2
        cases h2
      · intro id0 swap0 h1 h2
        cases h1
        rw [hfind] at h2
        cases h2
    | some swap =>
      by_cases hu : user.toString ≠ swap.fromUser.toString
      · have hne : user ≠ swap.fromUser := fun h => hu (by rw [h])
        have hres : deleteSwap swaps user swapId =
            (⟨403, "Only the sender can delete this request"⟩, swaps) := by
          unfold deleteSwap
          simp only [hid, hfind, if_pos hu]
        rw [hres]
        refine ⟨⟨fun h => by simp [serverError] at h, ?_⟩, fun h => by simp [serverError] at h,
          fun _ => rfl, ?_⟩
        · rintro ⟨id0, swap0, h1, h2, h3, -⟩
          cases h1
          rw [hfind] at h2
          cases h2
          exact absurd h3 hne
        · intro id0 swap0 h1 h2 h3
          cases h1
          rw [hfind] at h2
          cases h2
          exact absurd h3 hne
      · have hu0 : user.toString = swap.fromUser.toString := by simpa using hu
        have heq : user = swap.fromUser := ObjectId.toString_inj.mp hu0
        by_cases hs : swap.status ≠ some "pending"
        · have hres : deleteSwap swaps user swapId =
              (⟨400, "Only pending requests can be deleted"⟩, swaps) := by
            unfold deleteSwap
            simp only [hid, hfind, if_neg hu, if_pos hs]
          rw [hres]
          refine ⟨⟨fun h => by simp [serverError] at h, ?_⟩, fun h => by simp [serverError] at h,
            fun _ => rfl, fun _ _ _ _ _ _ => rfl⟩
          rintro ⟨id0, swap0, h1, h2, -, h4⟩
          cases h1
          rw [hfind] at h2
          cases h2
          exact absurd h4 hs
        · have hs0 : swap.status = some "pending" := by simpa using hs
          have hres : deleteSwap swaps user swapId =
              (⟨200, "Swap request deleted successfully"⟩,
                swaps.eraseP (fun d => decide (d._id = id))) := by
            unfold deleteSwap
            simp only [hid, hfind, if_neg hu, if_neg hs]
          rw [hres]
          refine ⟨⟨fun _ => ⟨id, swap, rfl, hfind, heq, hs0⟩, fun _ => rfl⟩, ?_,
            fun h => absurd rfl h, ?_⟩
          · intro _
            obtain ⟨d, hd, -⟩ := find?_of_findById hfind
            have hmem := List.mem_of_find?_eq_some hd
            have hp : (fun d : SwapRequest => decide (d._id = id)) d = true := by
              have h0 := List.find?_some hd
              simpa using h0
            obtain ⟨a, l₁, l₂, h1, h2, h3, h4⟩ :=
              List.exists_of_eraseP (p := fun d : SwapRequest => decide (d._id = id)) hmem hp
            refine ⟨id, a, l₁, l₂, rfl, by simpa using h2, ?_, h3, h4⟩
            intro b hb
            simpa using h1 b hb
          · intro id0 swap0 h1 h2 _ h4
            cases h1
            rw [hfind] at h2
            cases h2
            rw [hs0] at h4
            exact absurd h4 (by decide)

/-- Witness for C14: the sender deletes the pending sample swap, and is refused
on the accepted one. -/
theorem deleteSwap_spec_witness :
    deleteSwap [pendingSwap] aliceId swapId1.toString =
        (⟨200, "Swap request deleted successfully"⟩, []) ∧
      deleteSwap [acceptedSwap] aliceId swapId1.toString =
        (⟨400, "Only pending requests can be deleted"⟩, [acceptedSwap]) :=
  ⟨by decide,
    (deleteSwap_spec [acceptedSwap] aliceId swapId1.toString).2.2.2 swapId1 acceptedSwap
      (by decide) (by decide) rfl rfl⟩

/-! ## `POST /swaps/:id/feedback`: the outcomes of the handler -/

/-- The swap document the feedback handler saves. -/
theorem postFeedback_shape (swaps : List SwapRequest) (users : List User) (user : ObjectId)
    (swapId : String) (body : FeedbackBody) (now : Nat) :
    (∃ r : Response, r.code ≠ 200 ∧
        postFeedback swaps users user swapId body now = (r, swaps, users)) ∨
      ∃ id swap q, castObjectId swapId = some id ∧ findById swaps id = some swap ∧
        feedbackStranger users swap user = some false ∧ swap.status = some "completed" ∧
        swap.feedback.any (fun f => decide (f.from_.toString = user.toString)) = false ∧
        body.rating = JsRating.num q ∧ 1 ≤ q ∧ q ≤ 5 ∧
        ((rateTarget users swap user q body.comment now = none ∧
            postFeedback swaps users user swapId body now =
              (serverError,
                writeBack swaps
                  { swap with
                    feedback := swap.feedback ++ [⟨user, q, commentOrEmpty body.comment, now⟩]
                    updatedAt := now },
                users)) ∨
          ∃ users1, rateTarget users swap user q body.comment now = some users1 ∧
            postFeedback swaps users user swapId body now =
              (⟨200, "Feedback submitted successfully"⟩,
                writeBack swaps
                  { swap with
                    feedback := swap.feedback ++ [⟨user, q, commentOrEmpty body.comment, now⟩]
                    updatedAt := now },
                users1)) := by
  by_cases h1 : body.rating.falsy = true
  · exact Or.inl ⟨⟨400, "Rating is required"⟩, by decide, by
      unfold postFeedback
      rw [if_pos h1]⟩
  by_cases h2 : body.rating.outOfRange = true
  · exact Or.inl ⟨⟨400, "Rating must be between 1 and 5"⟩, by decide, by
      unfold postFeedback
      rw [if_neg h1, if_pos h2]⟩
  cases hid : castObjectId swapId with
  | none =>
    exact Or.inl ⟨serverError, by decide, by
      unfold postFeedback
      simp only [if_neg h1, if_neg h2, hid]⟩
  | some id =>
    cases hfind : findById swaps id with
    | none =>
      exact Or.inl ⟨⟨404, "Swap request not found"⟩, by decide, by
        unfold postFeedback
        simp only [if_neg h1, if_neg h2, hid, hfind]⟩
    | some swap =>
      cases hstr : feedbackStranger users swap user with
      | none =>
        exact Or.inl ⟨serverError, by decide, by
          unfold postFeedback
          simp only [if_neg h1, if_neg h2, hid, hfind, hstr]⟩
      | some b =>
        cases b with
        | true =>
          exact Or.inl ⟨⟨403, "You can only provide feedback for your own swaps"⟩,
            by decide, by
              unfold postFeedback
              simp only [if_neg h1, if_neg h2, hid, hfind, hstr]⟩
        | false =>
          by_cases hst : swap.status ≠ some "completed"
          · exact Or.inl ⟨⟨400, "Can only provide feedback for completed swaps"⟩,
              by decide, by
                unfold postFeedback
                simp only [if_neg h1, if_neg h2, hid, hfind, hstr, if_pos hst]⟩
          by_cases hany :
              swap.feedback.any (fun f => decide (f.from_.toString = user.toString)) = true
          · exact Or.inl ⟨⟨400, "You have already provided feedback for this swap"⟩,
              by decide, by
                unfold postFeedback
                simp only [if_neg h1, if_neg h2, hid, hfind, hstr, if_neg hst, if_pos hany]⟩
          cases hcast : body.rating.cast with
          | none =>
            exact Or.inl ⟨serverError, by decide, by
              unfold postFeedback
              simp only [if_neg h1, if_neg h2, hid, hfind, hstr, if_neg hst, if_neg hany,
                hcast]⟩
          | some q =>
            have hq : body.rating = JsRating.num q := by
              cases hb : body.rating with
              | absent => rw [hb] at hcast; cases hcast
              | nan => rw [hb] at hcast; cases hcast
              | num q0 =>
                rw [hb] at hcast
                cases hcast
                rfl
            have hrange : 1 ≤ q ∧ q ≤ 5 := by
              rw [hq] at h2
              simp only [JsRating.outOfRange, Bool.or_eq_true, decide_eq_true_eq, not_or,
                not_lt] at h2
              exact h2
            by_cases hlen : validMaxlength 500 (some (commentOrEmpty body.comment)) = true
            · right
              refine ⟨id, swap, q, rfl, hfind, hstr, by simpa using hst, by simpa using hany,
                hq, hrange.1, hrange.2, ?_⟩
              cases hrt : rateTarget users swap user q body.comment now with
              | none =>
                left
                refine ⟨rfl, ?_⟩
                unfold postFeedback
                simp only [if_neg h1, if_neg h2, hid, hfind, hstr, if_neg hst, if_neg hany,
                  hcast, if_pos hlen, hrt]
              | some users1 =>
                right
                refine ⟨users1, rfl, ?_⟩
                unfold postFeedback
                simp only [if_neg h1, if_neg h2, hid, hfind, hstr, if_neg hst, if_neg hany,
                  hcast, if_pos hlen, hrt]
            · exact Or.inl ⟨serverError, by decide, by
                unfold postFeedback
                simp only [if_neg h1, if_neg h2, hid, hfind, hstr, if_neg hst, if_neg hany,
                  hcast, if_neg hlen]⟩

theorem findUserById_id {users : List User} {id : ObjectId} {u : User}
    (h : findUserById users id = some u) : u._id = id := by
  unfold findUserById at h
  have h0 := List.find?_some h
  simpa using h0

theorem feedbackStranger_participant {users : List User} {swap : SwapRequest}
    {user : ObjectId} {f t : User}
    (hf : findUserById users swap.fromUser = some f)
    (ht : findUserById users swap.toUser = some t)
    (hpart : user = swap.fromUser ∨ user = swap.toUser) :
    feedbackStranger users swap user = some false := by
  have hfid := findUserById_id hf
  have htid := findUserById_id ht
  unfold feedbackStranger
  simp only [hf, ht, hfid, htid]
  by_cases h : swap.fromUser.toString ≠ user.toString
  · rw [if_pos h]
    rcases hpart with hp | hp
    · exact absurd (by rw [hp]) h
    · simp [hp]
  · rw [if_neg h]

/-- C15: on a swap whose status is not `completed`, AttachFeedback by a
participant with a rating between 1 and 5 (both participants being stored
users) is answered 400 "Can only provide feedback for completed swaps"; no
swap and no user is changed. -/
theorem postFeedback_not_completed (swaps : List SwapRequest) (users : List User)
    (user : ObjectId) (swapId : String) (id : ObjectId) (swap : SwapRequest)
    (body : FeedbackBody) (now : Nat) (q : ℚ) (f t : User)
    (hrating : body.rating = JsRating.num q) (h1 : 1 ≤ q) (h5 : q ≤ 5)
    (hid : castObjectId swapId = some id) (hfind : findById swaps id = some swap)
    (hf : findUserById users swap.fromUser = some f)
    (ht : findUserById users swap.toUser = some t)
    (hpart : user = swap.fromUser ∨ user = swap.toUser)
    (hst : swap.status ≠ some "completed") :
    postFeedback swaps users user swapId body now =
      (⟨400, "Can only provide feedback for completed swaps"⟩, swaps, users) := by
  have hfalsy : body.rating.falsy = false := by
    rw [hrating]
    have hq : q ≠ 0 := by linarith
    simp [JsRating.falsy, hq]
  have hrange : body.rating.outOfRange = false := by
    rw [hrating]
    simp [JsRating.outOfRange, h1, h5]
  unfold postFeedback
  simp only [hfalsy, hrange, Bool.false_eq_true, if_false, hid, hfind,
    feedbackStranger_participant hf ht hpart, if_pos hst]

/-- Witness for C15: the recipient of the accepted sample swap sends a rating
of 4. -/
theorem postFeedback_not_completed_witness :
    postFeedback [acceptedSwap] sampleUsers bobId swapId1.toString
        ⟨JsRating.num 4, some "thanks"⟩ 9 =
      (⟨400, "Can only provide feedback for completed swaps"⟩, [acceptedSwap], sampleUsers) :=
  postFeedback_not_completed [acceptedSwap] sampleUsers bobId swapId1.toString swapId1
    acceptedSwap ⟨JsRating.num 4, some "thanks"⟩ 9 4 (sampleUser aliceId true)
    (sampleUser bobId true) rfl (by norm_num) (by norm_num) (by decide) (by decide)
    (by decide) (by decide) (Or.inr rfl) (by decide)

/-! ## `POST /swaps/:id/feedback`: the rating checks -/

theorem postFeedback_bad_number (swaps : List SwapRequest) (users : List User)
    (user : ObjectId) (swapId : String) (body : FeedbackBody) (now : Nat)
    (h : body.rating = JsRating.absent ∨ ∃ q, body.rating = JsRating.num q ∧ (q < 1 ∨ 5 < q)) :
    (postFeedback swaps users user swapId body now).1.code = 400 ∧
      (postFeedback swaps users user swapId body now).2 = (swaps, users) := by
  unfold postFeedback
  rcases h with h | ⟨q, h, hq⟩
  · simp [h, JsRating.falsy]
  · by_cases h0 : q = 0
    · simp [h, JsRating.falsy, h0]
    · have hr : (JsRating.num q).outOfRange = true := by
        simp only [JsRating.outOfRange, Bool.or_eq_true, decide_eq_true_eq]
        exact hq
      simp [h, JsRating.falsy, h0, hr]

/-- C17 (the code departs from the claim): a rating that is not a number, such
as the string "abc", passes both rating checks because comparisons with `NaN`
are false. Sent by the sender of the completed sample swap it is answered 500
by the catch branch (the cast to Number fails in `save`), not 400; nothing is
stored. -/
theorem postFeedback_nan_rating_500 :
    JsRating.nan.falsy = false ∧ JsRating.nan.outOfRange = false ∧
      postFeedback [completedSwap] sampleUsers aliceId swapId1.toString
          ⟨JsRating.nan, some "great"⟩ 9 =
        (serverError, [completedSwap], sampleUsers) := by
  refine ⟨rfl, rfl, ?_⟩
  decide

/-! ## Ratings: `updateRating` and `averageRating` -/

theorem updateRating_ratingCount (u : User) (r : ℚ) :
    (updateRating u r).ratingCount = u.ratingCount + 1 := rfl

theorem updateRating_total (u : User) (r : ℚ) :
    (updateRating u r).rating * ((updateRating u r).ratingCount : ℚ) =
      u.rating * (u.ratingCount : ℚ) + r := by
  have hpos : ((u.ratingCount : ℚ) + 1) ≠ 0 := by positivity
  show (u.rating * (u.ratingCount : ℚ) + r) / ((u.ratingCount : ℚ) + 1) *
    ((u.ratingCount + 1 : ℕ) : ℚ) = _
  push_cast
  field_simp

theorem foldl_updateRating (rs : List ℚ) (u : User) :
    (rs.foldl updateRating u).ratingCount = u.ratingCount + rs.length ∧
      (rs.foldl updateRating u).rating * ((rs.foldl updateRating u).ratingCount : ℚ) =
        u.rating * (u.ratingCount : ℚ) + rs.sum := by
  induction rs generalizing u with
  | nil => simp
  | cons r rs ih =>
    obtain ⟨h1, h2⟩ := ih (updateRating u r)
    rw [List.foldl_cons]
    refine ⟨?_, ?_⟩
    · rw [h1, updateRating_ratingCount, List.length_cons]
      omega
    · rw [h2, updateRating_total, List.sum_cons]
      ring

/-- C19: starting from a user with rating 0 and ratingCount 0, after
`updateRating` has been applied in turn with the ratings `r1, ..., rn` (n ≥ 1),
`ratingCount` is `n` and the stored `rating` is `(r1 + ... + rn) / n`, in exact
rational arithmetic. -/
theorem updateRating_mean (u : User) (rs : List ℚ) (hr : u.rating = 0)
    (hc : u.ratingCount = 0) (hne : rs ≠ []) :
    (rs.foldl updateRating u).ratingCount = rs.length ∧
      (rs.foldl updateRating u).rating = rs.sum / (rs.length : ℚ) := by
  obtain ⟨h1, h2⟩ := foldl_updateRating rs u
  rw [hc, Nat.zero_add] at h1
  refine ⟨h1, ?_⟩
  have hlen : (rs.length : ℚ) ≠ 0 := by
    have : 0 < rs.length := List.length_pos.mpr hne
    positivity
  rw [h1, hr, zero_mul, zero_add] at h2
  rw [eq_div_iff hlen]
  exact h2

/-- Witness for C19: a fresh user rated 5 and then 3 has ratingCount 2 and
rating 4. -/
theorem updateRating_mean_witness :
    ([5, 3].foldl updateRating (sampleUser bobId true)).ratingCount = 2 ∧
      ([5, 3].foldl updateRating (sampleUser bobId true)).rating = 4 := by
  have h := updateRating_mean (sampleUser bobId true) [5, 3] rfl rfl (by simp)
  refine ⟨h.1, ?_⟩
  rw [h.2]
  norm_num

/-- C20 (the code departs from the claim): `updateRating` keeps the mean of the
ratings in `rating`, and the virtual `averageRating` divides `rating` by
`ratingCount` once more. For a fresh user rated 5 and then 3 the mean is 4 and
`averageRating` is 2. -/
theorem averageRating_not_mean :
    ([5, 3].foldl updateRating (sampleUser bobId true)).rating = 4 ∧
      averageRating ([5, 3].foldl updateRating (sampleUser bobId true)) = 2 := by
  constructor
  · simp [updateRating, sampleUser]
    norm_num
  · simp [averageRating, updateRating, sampleUser]
    norm_num

/-! ## `POST /swaps/:id/feedback`: the rating goes to the other participant -/

theorem findUserById_map (users : List User) (g : User → User) (x : ObjectId)
    (hg : ∀ u, (g u)._id = u._id) :
    findUserById (users.map g) x = (findUserById users x).map g := by
  unfold findUserById
  induction users with
  | nil => rfl
  | cons u us ih =>
    by_cases hu : u._id = x
    · simp [hu, hg]
    · rw [List.map_cons, List.find?_cons_of_neg _ (by simpa [hg] using hu),
        List.find?_cons_of_neg _ (by simpa using hu)]
      exact ih

theorem findUserById_writeBackUser (users : List User) (doc : User) (x : ObjectId) :
    findUserById (writeBackUser users doc) x =
      (findUserById users x).map (fun u => if u._id = doc._id then doc else u) := by
  unfold writeBackUser
  apply findUserById_map
  intro u
  by_cases h : u._id = doc._id
  · simp [h]
  · simp [h]

theorem findUserById_writeBackUser_self {users : List User} {doc : User} (tu : User)
    (h : findUserById users doc._id = some tu) :
    findUserById (writeBackUser users doc) doc._id = some doc := by
  rw [findUserById_writeBackUser, h]
  have hid := findUserById_id h
  simp [hid]

theorem feedbackStranger_false {users : List User} {swap : SwapRequest} {user : ObjectId}
    (h : feedbackStranger users swap user = some false) :
    ∃ f, findUserById users swap.fromUser = some f ∧
      (user = swap.fromUser ∨
        (user ≠ swap.fromUser ∧ user = swap.toUser ∧
          ∃ t, findUserById users swap.toUser = some t)) := by
  unfold feedbackStranger at h
  cases hf : findUserById users swap.fromUser with
  | none => simp [hf] at h
  | some f =>
    have hfid := findUserById_id hf
    refine ⟨f, rfl, ?_⟩
    simp only [hf, hfid] at h
    by_cases hu : swap.fromUser.toString ≠ user.toString
    · rw [if_pos hu] at h
      cases ht : findUserById users swap.toUser with
      | none => simp [ht] at h
      | some t =>
        have htid := findUserById_id ht
        simp only [ht, htid, Option.some.injEq, decide_eq_false_iff_not, not_not] at h
        right
        refine ⟨fun hx => hu (by rw [hx]), (ObjectId.toString_inj.mp h).symm, t, rfl⟩
    · left
      have hu0 : swap.fromUser.toString = user.toString := by simpa using hu
      exact (ObjectId.toString_inj.mp hu0).symm

theorem rateTarget_some {users users1 : List User} {swap : SwapRequest} {user : ObjectId}
    {q : ℚ} {comment : Option String} {now : Nat}
    (hstr : feedbackStranger users swap user = some false)
    (h : rateTarget users swap user q comment now = some users1) :
    ∃ target tu,
      ((user = swap.fromUser ∧ target = swap.toUser) ∨
        (user ≠ swap.fromUser ∧ user = swap.toUser ∧ target = swap.fromUser)) ∧
      findUserById users target = some tu ∧
      users1 = writeBackUser users
        (updateRating
          { tu with feedback := tu.feedback ++ [⟨user, feedbackMessage comment swap, q, now⟩] }
          q) := by
  obtain ⟨f, hf, hcase⟩ := feedbackStranger_false hstr
  have hfid := findUserById_id hf
  unfold rateTarget feedbackTarget at h
  simp only [hf, hfid] at h
  rcases hcase with hu | ⟨hne, hu, t, ht⟩
  · have hs : swap.fromUser.toString = user.toString := by rw [hu]
    rw [if_pos hs] at h
    cases ht : findUserById users swap.toUser with
    | none => simp [ht] at h
    | some t =>
      have htid := findUserById_id ht
      simp only [ht, Option.map_some', htid] at h
      refine ⟨swap.toUser, t, Or.inl ⟨hu, rfl⟩, ht, ?_⟩
      split_ifs at h with hv
      have h0 := (Option.some.inj h).symm
      rw [← htid] at h0
      exact h0
  · have hs : ¬ swap.fromUser.toString = user.toString := fun hx =>
      hne (ObjectId.toString_inj.mp hx).symm
    rw [if_neg hs] at h
    simp only [hf] at h
    refine ⟨swap.fromUser, f, Or.inr ⟨hne, hu, rfl⟩, hf, ?_⟩
    split_ifs at h with hv
    exact (Option.some.inj h).symm

theorem postFeedback_of_ok {swaps : List SwapRequest} {users : List User} {user : ObjectId}
    {swapId : String} {id : ObjectId} {swap : SwapRequest} {body : FeedbackBody} {now : Nat}
    (hid : castObjectId swapId = some id) (hfind : findById swaps id = some swap)
    (hsucc : (postFeedback swaps users user swapId body now).1.code = 200) :
    ∃ q users1, feedbackStranger users swap user = some false ∧
      swap.status = some "completed" ∧
      swap.feedback.any (fun f => decide (f.from_.toString = user.toString)) = false ∧
      body.rating = JsRating.num q ∧ 1 ≤ q ∧ q ≤ 5 ∧
      rateTarget users swap user q body.comment now = some users1 ∧
      postFeedback swaps users user swapId body now =
        (⟨200, "Feedback submitted successfully"⟩,
          writeBack swaps
            { swap with
              feedback := swap.feedback ++ [⟨user, q, commentOrEmpty body.comment, now⟩]
              updatedAt := now },
          users1) := by
  rcases postFeedback_shape swaps users user swapId body now with
    ⟨r, hr, hres⟩ | ⟨id0, swap0, q, h1, h2, h3, h4, h5, h6, h7, h8, hres⟩
  · rw [hres] at hsucc
    exact absurd hsucc hr
  · rw [hid] at h1
    cases h1
    rw [hfind] at h2
    cases h2
    rcases hres with ⟨-, hres⟩ | ⟨users1, hrt, hres⟩
    · rw [hres] at hsucc
      simp [serverError] at hsucc
    · exact ⟨q, users1, h3, h4, h5, h6, h7, h8, hrt, hres⟩

theorem ratedUserValid_of_bounds (tu : User) (user : ObjectId) (msg : String) (q : ℚ)
    (now : Nat) (h0 : 0 ≤ tu.rating) (hmax : tu.rating ≤ 5) (h1 : 1 ≤ q) (h5 : q ≤ 5)
    (hmsg : msg ≠ "") (hlen : jsLength msg ≤ 500) :
    ratedUserValid
      (updateRating { tu with feedback := tu.feedback ++ [⟨user, msg, q, now⟩] } q)
      ⟨user, msg, q, now⟩ = true := by
  have hc : (0 : ℚ) ≤ (tu.ratingCount : ℚ) := Nat.cast_nonneg _
  have hpos : (0 : ℚ) < (tu.ratingCount : ℚ) + 1 := by linarith
  have hlo : 0 ≤ (tu.rating * (tu.ratingCount : ℚ) + q) / ((tu.ratingCount : ℚ) + 1) := by
    apply div_nonneg _ hpos.le
    nlinarith [mul_nonneg h0 hc]
  have hhi : (tu.rating * (tu.ratingCount : ℚ) + q) / ((tu.ratingCount : ℚ) + 1) ≤ 5 := by
    rw [div_le_iff₀ hpos]
    nlinarith [mul_le_mul_of_nonneg_right hmax hc]
  simp only [ratedUserValid, validUserFeedback, validRequired, validMaxlength, updateRating,
    Bool.and_eq_true, decide_eq_true_eq]
  exact ⟨⟨⟨⟨⟨hmsg, hlen⟩, h1⟩, h5⟩, hlo⟩, hhi⟩

theorem rateTarget_eq {users : List User} {swap : SwapRequest} {user : ObjectId}
    (tid : ObjectId) {tu : User} {q : ℚ} {comment : Option String} {now : Nat}
    (htarget : feedbackTarget users swap user = some tid)
    (htu : findUserById users tid = some tu)
    (hvalid : ratedUserValid
      (updateRating
        { tu with feedback := tu.feedback ++ [⟨user, feedbackMessage comment swap, q, now⟩] } q)
      ⟨user, feedbackMessage comment swap, q, now⟩ = true) :
    rateTarget users swap user q comment now =
      some (writeBackUser users
        (updateRating
          { tu with feedback := tu.feedback ++ [⟨user, feedbackMessage comment swap, q, now⟩] }
          q)) := by
  unfold rateTarget
  simp only [htarget, htu, hvalid, if_true]

theorem postFeedback_success {swaps : List SwapRequest} {users users1 : List User}
    {user : ObjectId} {swapId : String} (id : ObjectId) {swap : SwapRequest}
    {body : FeedbackBody} {now : Nat} (q : ℚ)
    (hid : castObjectId swapId = some id) (hfind : findById swaps id = some swap)
    (hstr : feedbackStranger users swap user = some false)
    (hst : swap.status = some "completed")
    (hany : swap.feedback.any (fun f => decide (f.from_.toString = user.toString)) = false)
    (hrating : body.rating = JsRating.num q) (h1 : 1 ≤ q) (h5 : q ≤ 5)
    (hlen : validMaxlength 500 (some (commentOrEmpty body.comment)) = true)
    (hrt : rateTarget users swap user q body.comment now = some users1) :
    postFeedback swaps users user swapId body now =
      (⟨200, "Feedback submitted successfully"⟩,
        writeBack swaps
          { swap with
            feedback := swap.feedback ++ [⟨user, q, commentOrEmpty body.comment, now⟩]
            updatedAt := now },
        users1) := by
  have hfalsy : body.rating.falsy = false := by
    rw [hrating]
    have hq : q ≠ 0 := by linarith
    simp [JsRating.falsy, hq]
  have hrange : body.rating.outOfRange = false := by
    rw [hrating]
    simp [JsRating.outOfRange, h1, h5]
  have hcast : body.rating.cast = some q := by
    rw [hrating]
    rfl
  unfold postFeedback
  simp only [hfalsy, hrange, Bool.false_eq_true, if_false, hid, hfind, hstr, hst, ne_eq,
    not_true_eq_false, hany, hcast, hlen, if_true, hrt]

/-- The completed sample swap after its sender left a rating of 5 at time 9. -/
theorem sample_feedback_ok :
    postFeedback [completedSwap] sampleUsers aliceId swapId1.toString
        ⟨JsRating.num 5, some "great"⟩ 9 =
      (⟨200, "Feedback submitted successfully"⟩,
        writeBack [completedSwap]
          { completedSwap with
            feedback := completedSwap.feedback ++ [⟨aliceId, 5, "great", 9⟩]
            updatedAt := 9 },
        writeBackUser sampleUsers
          (updateRating
            { sampleUser bobId true with
              feedback := (sampleUser bobId true).feedback ++ [⟨aliceId, "great", 5, 9⟩] }
            5)) := by
  have hrt : rateTarget sampleUsers completedSwap aliceId 5 (some "great") 9 =
      some (writeBackUser sampleUsers
        (updateRating
          { sampleUser bobId true with
            feedback := (sampleUser bobId true).feedback ++
              [⟨aliceId, feedbackMessage (some "great") completedSwap, 5, 9⟩] }
          5)) :=
    rateTarget_eq bobId (by decide) (by decide)
      (ratedUserValid_of_bounds (sampleUser bobId true) aliceId _ 5 9 (by simp [sampleUser])
        (by simp [sampleUser]) (by norm_num) (by norm_num) (by decide) (by decide))
  exact postFeedback_success swapId1 5 (by decide) (by decide) (by decide) rfl
    (by decide) rfl (by norm_num) (by norm_num) (by decide) hrt

theorem findUserById_writeBackUser_of_ne {users : List User} {doc : User} {x : ObjectId}
    (h : x ≠ doc._id) : findUserById (writeBackUser users doc) x = findUserById users x := by
  rw [findUserById_writeBackUser]
  cases hu : findUserById users x with
  | none => rfl
  | some u =>
    have hx := findUserById_id hu
    have hne : ¬ u._id = doc._id := by
      rw [hx]
      exact h
    simp [hne]

/-- On a swap between two distinct users: after a successful AttachFeedback
(answer 200) by a participant `user`, the users afterwards are the users before
with only the other participant replaced: that user has one more feedback entry,
authored by `user` and carrying the rating, `ratingCount` one higher and the
running mean as `rating`. The record of `user` is unchanged. -/
theorem postFeedback_rates_other (swaps : List SwapRequest) (users : List User)
    (user : ObjectId) (swapId : String) (id : ObjectId) (swap : SwapRequest)
    (body : FeedbackBody) (now : Nat)
    (hid : castObjectId swapId = some id) (hfind : findById swaps id = some swap)
    (hne : swap.fromUser ≠ swap.toUser)
    (hsucc : (postFeedback swaps users user swapId body now).1.code = 200) :
    ∃ q target tu,
      ((user = swap.fromUser ∧ target = swap.toUser) ∨
        (user = swap.toUser ∧ target = swap.fromUser)) ∧
      body.rating = JsRating.num q ∧ findUserById users target = some tu ∧
      (postFeedback swaps users user swapId body now).2.2 =
        users.map (fun u =>
          if u._id = target then
            { tu with
              feedback := tu.feedback ++ [⟨user, feedbackMessage body.comment swap, q, now⟩]
              rating := ((tu.rating * tu.ratingCount) + q) / (tu.ratingCount + 1)
              ratingCount := tu.ratingCount + 1 }
          else u) ∧
      findUserById (postFeedback swaps users user swapId body now).2.2 user =
        findUserById users user := by
  obtain ⟨q, users1, hstr, -, -, hq, -, -, hrt, hres⟩ := postFeedback_of_ok hid hfind hsucc
  obtain ⟨target, tu, hcase, htu, husers⟩ := rateTarget_some hstr hrt
  have htid := findUserById_id htu
  have hut : user ≠ target := by
    rcases hcase with ⟨h1, h2⟩ | ⟨-, h1, h2⟩
    · rw [h1, h2]
      exact hne
    · rw [h1, h2]
      exact fun h => hne h.symm
  refine ⟨q, target, tu, ?_, hq, htu, ?_, ?_⟩
  · rcases hcase with ⟨h1, h2⟩ | ⟨-, h1, h2⟩
    · exact Or.inl ⟨h1, h2⟩
    · exact Or.inr ⟨h1, h2⟩
  · rw [hres, husers]
    subst htid
    rfl
  · rw [hres, husers]
    apply findUserById_writeBackUser_of_ne
    show user ≠ tu._id
    rw [htid]
    exact hut

/-- The sender of the completed sample swap rates it 5; the recipient gets the
entry and the sender's record stays as it was. -/
theorem postFeedback_rates_other_witness :
    ∃ q target tu,
      ((aliceId = completedSwap.fromUser ∧ target = completedSwap.toUser) ∨
        (aliceId = completedSwap.toUser ∧ target = completedSwap.fromUser)) ∧
      (⟨JsRating.num 5, some "great"⟩ : FeedbackBody).rating = JsRating.num q ∧
      findUserById sampleUsers target = some tu ∧
      (postFeedback [completedSwap] sampleUsers aliceId swapId1.toString
          ⟨JsRating.num 5, some "great"⟩ 9).2.2 =
        sampleUsers.map (fun u =>
          if u._id = target then
            { tu with
              feedback := tu.feedback ++
                [⟨aliceId, feedbackMessage (some "great") completedSwap, q, 9⟩]
              rating := ((tu.rating * tu.ratingCount) + q) / (tu.ratingCount + 1)
              ratingCount := tu.ratingCount + 1 }
          else u) ∧
      findUserById (postFeedback [completedSwap] sampleUsers aliceId swapId1.toString
          ⟨JsRating.num 5, some "great"⟩ 9).2.2 aliceId =
        findUserById sampleUsers aliceId :=
  postFeedback_rates_other [completedSwap] sampleUsers aliceId swapId1.toString swapId1
    completedSwap ⟨JsRating.num 5, some "great"⟩ 9 (by decide) (by decide) (by decide)
    (by rw [sample_feedback_ok])

/-! ## One feedback entry per author -/

theorem mem_of_findById {swaps : List SwapRequest} {id : ObjectId} {swap : SwapRequest}
    (h : findById swaps id = some swap) : ∃ d ∈ swaps, hydrate d = swap := by
  obtain ⟨d, hd, hh⟩ := find?_of_findById h
  exact ⟨d, List.mem_of_find?_eq_some hd, hh⟩

theorem forall_writeBack {P : SwapRequest → Prop} {swaps : List SwapRequest}
    {doc : SwapRequest} (hall : ∀ d ∈ swaps, P d) (hdoc : P doc) :
    ∀ d ∈ writeBack swaps doc, P d := by
  intro d hd
  unfold writeBack at hd
  rw [List.mem_map] at hd
  obtain ⟨d0, hd0, rfl⟩ := hd
  by_cases h : d0._id = doc._id
  · rw [if_pos h]
    exact hdoc
  · rw [if_neg h]
    exact hall d0 hd0

theorem postSwap_store (users : List User) (swaps : List SwapRequest) (user : ObjectId)
    (body : CreateBody) (newId : ObjectId) (now : Nat) :
    (postSwap users swaps user body newId now).2 = swaps ∨
      ∃ doc, doc.feedback = [] ∧ (postSwap users swaps user body newId now).2 = swaps ++ [doc] := by
  unfold postSwap
  by_cases h1 :
      (!truthy body.toUser || !truthy body.offeredSkill || !truthy body.wantedSkill) = true
  · rw [if_pos h1]
    exact Or.inl rfl
  · rw [if_neg h1]
    simp only []
    by_cases h2 : user.toString = body.toUser.getD ""
    · rw [if_pos h2]
      exact Or.inl rfl
    · rw [if_neg h2]
      split
      · exact Or.inl rfl
      · split
        · exact Or.inl rfl
        · split_ifs
          · exact Or.inl rfl
          · exact Or.inl rfl
          · exact Or.inr ⟨_, rfl, rfl⟩
          · exact Or.inl rfl

theorem putSwap_store (swaps : List SwapRequest) (user : ObjectId) (swapId : String)
    (body : UpdateBody) (now : Nat) :
    (putSwap swaps user swapId body now).2 = swaps ∨
      ∃ id swap, findById swaps id = some swap ∧
        (putSwap swaps user swapId body now).2 =
          writeBack swaps { putSwapAssign swap body now with updatedAt := now } := by
  cases hid : castObjectId swapId with
  | none =>
    left
    unfold putSwap
    simp only [hid]
  | some id =>
    cases hfind : findById swaps id with
    | none =>
      left
      unfold putSwap
      simp only [hid, hfind]
    | some swap =>
      by_cases hc : (putSwap swaps user swapId body now).1.code = 200
      · exact Or.inr ⟨id, swap, hfind, putSwap_of_ok hid hfind hc⟩
      · left
        unfold putSwap at hc ⊢
        simp only [hid, hfind] at hc ⊢
        cases href : putSwapRefusal user swap body.status with
        | some r => simp only [href]
        | none =>
          simp only [href] at hc ⊢
          by_cases hv : putSwapValid body = true
          · simp [hv] at hc
          · simp [hv]

theorem moderateAssign_feedback (swap : SwapRequest) (body : UpdateBody) (now : Nat) :
    (moderateAssign swap body now).feedback = swap.feedback := by
  unfold moderateAssign
  simp only []
  split_ifs <;> rfl

theorem moderateSwap_store (swaps : List SwapRequest) (swapId : String) (body : UpdateBody)
    (now : Nat) :
    (moderateSwap swaps swapId body now).2 = swaps ∨
      ∃ id swap doc, findById swaps id = some swap ∧ doc.feedback = swap.feedback ∧
        (moderateSwap swaps swapId body now).2 = writeBack swaps doc := by
  by_cases h0 : ¬ (body.status = some "rejected" ∨ body.status = some "cancelled")
  · left
    unfold moderateSwap
    rw [if_pos h0]
  cases hid : castObjectId swapId with
  | none =>
    left
    unfold moderateSwap
    simp only [if_neg h0, hid]
  | some id =>
    cases hfind : findById swaps id with
    | none =>
      left
      unfold moderateSwap
      simp only [if_neg h0, hid, hfind]
    | some swap =>
      by_cases hv : validMaxlength 500 (some (moderateNote body.adminNote)) = true
      · right
        refine ⟨id, swap, { moderateAssign swap body now with updatedAt := now }, hfind,
          moderateAssign_feedback swap body now, ?_⟩
        unfold moderateSwap
        simp only [if_neg h0, hid, hfind, if_pos hv]
      · left
        unfold moderateSwap
        simp only [if_neg h0, hid, hfind, if_neg hv]

theorem adminRemoveSwap_store (swaps : List SwapRequest) (id : String)
    (reason : Option String) (now : Nat) :
    (adminRemoveSwap swaps id reason now).2 = swaps ∨
      ∃ d doc, d ∈ swaps ∧ doc.feedback = d.feedback ∧
        (adminRemoveSwap swaps id reason now).2 = writeBack swaps doc := by
  unfold adminRemoveSwap
  split
  · exact Or.inl rfl
  · split
    · exact Or.inl rfl
    · rename_i d hd
      exact Or.inr ⟨d,
        { d with
          status := some "cancelled"
          adminNote := some (if truthy reason then reason.getD ""
            else "Removed for violating platform policies")
          updatedAt := now },
        List.mem_of_find?_eq_some hd, rfl, rfl⟩

theorem deleteSwap_store (swaps : List SwapRequest) (user : ObjectId) (swapId : String) :
    ∀ d ∈ (deleteSwap swaps user swapId).2, d ∈ swaps := by
  unfold deleteSwap
  split
  · exact fun d hd => hd
  · split
    · exact fun d hd => hd
    · split_ifs
      · exact fun d hd => hd
      · exact fun d hd => hd
      · exact fun d hd => List.eraseP_subset _ hd

theorem not_author_of_any_false {fb : List SwapFeedback} {user : ObjectId}
    (h : fb.any (fun f => decide (f.from_.toString = user.toString)) = false) :
    user ∉ fb.map (fun f => f.from_) := by
  intro hmem
  rw [List.mem_map] at hmem
  obtain ⟨f, hf, hfu⟩ := hmem
  have hall : ∀ x ∈ fb, ¬ (x.from_.toString = user.toString) := by
    simpa using h
  exact hall f hf (by rw [hfu])

theorem authors_nodup_push {fb : List SwapFeedback} {entry : SwapFeedback}
    (hnd : (fb.map (fun f => f.from_)).Nodup)
    (hnew : entry.from_ ∉ fb.map (fun f => f.from_)) :
    ((fb ++ [entry]).map (fun f => f.from_)).Nodup := by
  rw [List.map_append, List.map_singleton]
  apply List.Nodup.append hnd (List.nodup_singleton _)
  intro a ha hb
  rw [List.mem_singleton] at hb
  rw [hb] at ha
  exact hnew ha

theorem authors_nodup_of_findById {swaps : List SwapRequest} {id : ObjectId}
    {swap : SwapRequest}
    (hall : ∀ d ∈ swaps, (d.feedback.map (fun f => f.from_)).Nodup)
    (h : findById swaps id = some swap) : (swap.feedback.map (fun f => f.from_)).Nodup := by
  obtain ⟨d, hd, rfl⟩ := mem_of_findById h
  exact hall d hd

theorem reachable_authors_nodup {swaps : List SwapRequest} (h : Reachable swaps) :
    ∀ d ∈ swaps, (d.feedback.map (fun f => f.from_)).Nodup := by
  induction h with
  | empty =>
    intro d hd
    cases hd
  | create users user body newId now _ ih =>
    rcases postSwap_store users _ user body newId now with h | ⟨doc, hdoc, h⟩
    · rw [h]
      exact ih
    · rw [h]
      intro d hd
      rw [List.mem_append, List.mem_singleton] at hd
      rcases hd with hd | rfl
      · exact ih d hd
      · rw [hdoc]
        exact List.nodup_nil
  | transition user swapId body now _ ih =>
    rcases putSwap_store _ user swapId body now with h | ⟨id, swap, hfind, h⟩
    · rw [h]
      exact ih
    · rw [h]
      apply forall_writeBack ih
      show ((putSwapAssign swap body now).feedback.map (fun f => f.from_)).Nodup
      rw [(putSwapAssign_frame swap body now).2.2.2.2.2]
      exact authors_nodup_of_findById ih hfind
  | delete user swapId _ ih =>
    intro d hd
    exact ih d (deleteSwap_store _ user swapId d hd)
  | feedback users user swapId body now _ ih =>
    rcases postFeedback_shape _ users user swapId body now with
      ⟨r, -, hres⟩ | ⟨id, swap, q, -, hfind, -, -, hany, -, -, -, hres⟩
    · rw [hres]
      exact ih
    · have hdoc : ((swap.feedback ++
          [(⟨user, q, commentOrEmpty body.comment, now⟩ : SwapFeedback)]).map
            (fun f => f.from_)).Nodup :=
        authors_nodup_push (authors_nodup_of_findById ih hfind) (not_author_of_any_false hany)
      rcases hres with ⟨-, hres⟩ | ⟨users1, -, hres⟩
      · rw [hres]
        exact forall_writeBack ih hdoc
      · rw [hres]
        exact forall_writeBack ih hdoc
  | moderate swapId body now _ ih =>
    rcases moderateSwap_store _ swapId body now with h | ⟨id, swap, doc, hfind, hdoc, h⟩
    · rw [h]
      exact ih
    · rw [h]
      apply forall_writeBack ih
      rw [hdoc]
      exact authors_nodup_of_findById ih hfind
  | remove id reason now _ ih =>
    rcases adminRemoveSwap_store _ id reason now with h | ⟨d, doc, hd, hdoc, h⟩
    · rw [h]
      exact ih
    · rw [h]
      apply forall_writeBack ih
      rw [hdoc]
      exact ih d hd

theorem postFeedback_repeat {swaps : List SwapRequest} {users : List User}
    {user : ObjectId} {swapId : String} {id : ObjectId} {doc : SwapRequest}
    (body : FeedbackBody) (now : Nat) {f t : User}
    (hid : castObjectId swapId = some id) (hfind : findById swaps id = some doc)
    (hf : findUserById users doc.fromUser = some f)
    (ht : findUserById users doc.toUser = some t)
    (hpart : user = doc.fromUser ∨ user = doc.toUser)
    (hst : doc.status = some "completed")
    (hany : doc.feedback.any (fun f => decide (f.from_.toString = user.toString)) = true) :
    (postFeedback swaps users user swapId body now).1.code = 400 ∧
      (postFeedback swaps users user swapId body now).2 = (swaps, users) := by
  have hstr := feedbackStranger_participant hf ht hpart
  unfold postFeedback
  by_cases h1 : body.rating.falsy = true
  · rw [if_pos h1]
    exact ⟨rfl, rfl⟩
  rw [if_neg h1]
  by_cases h2 : body.rating.outOfRange = true
  · rw [if_pos h2]
    exact ⟨rfl, rfl⟩
  rw [if_neg h2]
  simp [hid, hfind, hstr, hst, hany]

/-- C16: in every reachable store the authors of a swap's feedback entries are
pairwise distinct; and after a successful AttachFeedback by `user` on a swap,
every further AttachFeedback by `user` on that swap is answered 400 and changes
neither the swaps nor any user, the swap holding exactly one entry authored by
`user`. -/
theorem postFeedback_once_per_author :
    (∀ swaps, Reachable swaps → ∀ d ∈ swaps, (d.feedback.map (fun f => f.from_)).Nodup) ∧
    ∀ (swaps : List SwapRequest) (users : List User) (user : ObjectId) (swapId : String)
      (id : ObjectId) (body body2 : FeedbackBody) (now now2 : Nat),
      castObjectId swapId = some id →
      (postFeedback swaps users user swapId body now).1.code = 200 →
      (postFeedback (postFeedback swaps users user swapId body now).2.1
          (postFeedback swaps users user swapId body now).2.2 user swapId body2 now2).1.code
          = 400 ∧
        (postFeedback (postFeedback swaps users user swapId body now).2.1
          (postFeedback swaps users user swapId body now).2.2 user swapId body2 now2).2 =
          (postFeedback swaps users user swapId body now).2 ∧
        ∃ doc, findById (postFeedback swaps users user swapId body now).2.1 id = some doc ∧
          (doc.feedback.map (fun f => f.from_)).count user = 1 := by
  refine ⟨fun swaps h => reachable_authors_nodup h, ?_⟩
  intro swaps users user swapId id body body2 now now2 hid hsucc
  cases hfind : findById swaps id with
  | none =>
    rcases postFeedback_shape swaps users user swapId body now with
      ⟨r, hr, hres⟩ | ⟨id0, swap, -, h1, h2, -⟩
    · rw [hres] at hsucc
      exact absurd hsucc hr
    · rw [hid] at h1
      cases h1
      rw [hfind] at h2
      cases h2
  | some swap =>
    obtain ⟨q, users1, hstr, hst, hany, -, -, -, hrt, hres⟩ :=
      postFeedback_of_ok hid hfind hsucc
    obtain ⟨target, tu, hcase, htu, husers⟩ := rateTarget_some hstr hrt
    obtain ⟨f, hf, hcase2⟩ := feedbackStranger_false hstr
    have hto : ∃ t, findUserById users swap.toUser = some t := by
      rcases hcase with ⟨-, h2⟩ | ⟨hne, -, -⟩
      · exact ⟨tu, by rw [← h2]; exact htu⟩
      · rcases hcase2 with h | ⟨-, -, ht⟩
        · exact absurd h hne
        · exact ht
    obtain ⟨t, ht⟩ := hto
    have hpart : user = swap.fromUser ∨ user = swap.toUser := by
      rcases hcase with ⟨h1, -⟩ | ⟨-, h1, -⟩
      · exact Or.inl h1
      · exact Or.inr h1
    rw [hres]
    have hfind1 := @findById_writeBack swaps id swap
      { swap with
        feedback := swap.feedback ++ [⟨user, q, commentOrEmpty body.comment, now⟩]
        updatedAt := now } hfind (show swap._id = id from findById_id hfind)
    obtain ⟨f1, hf1⟩ : ∃ f1, findUserById users1 swap.fromUser = some f1 := by
      rw [husers, findUserById_writeBackUser, hf]
      exact ⟨_, rfl⟩
    obtain ⟨t1, ht1⟩ : ∃ t1, findUserById users1 swap.toUser = some t1 := by
      rw [husers, findUserById_writeBackUser, ht]
      exact ⟨_, rfl⟩
    have hany1 : (swap.feedback ++
        [(⟨user, q, commentOrEmpty body.comment, now⟩ : SwapFeedback)]).any
          (fun f => decide (f.from_.toString = user.toString)) = true := by
      simp
    obtain ⟨hcode, hsame⟩ := postFeedback_repeat body2 now2 hid hfind1 hf1 ht1 hpart
      (by simp [hydrate, hst]) hany1
    refine ⟨hcode, hsame, _, hfind1, ?_⟩
    show ((swap.feedback ++
      [(⟨user, q, commentOrEmpty body.comment, now⟩ : SwapFeedback)]).map
        (fun f => f.from_)).count user = 1
    rw [List.map_append, List.count_append, List.map_singleton,
      List.count_eq_zero_of_not_mem (not_author_of_any_false hany)]
    simp

/-- Witness for C16: after the sender of the completed sample swap has rated it,
her second rating is refused and the swap holds one entry by her. -/
theorem postFeedback_once_per_author_witness :
    (postFeedback
        (postFeedback [completedSwap] sampleUsers aliceId swapId1.toString
          ⟨JsRating.num 5, some "great"⟩ 9).2.1
        (postFeedback [completedSwap] sampleUsers aliceId swapId1.toString
          ⟨JsRating.num 5, some "great"⟩ 9).2.2
        aliceId swapId1.toString ⟨JsRating.num 1, none⟩ 10).1.code = 400 ∧
      (postFeedback
        (postFeedback [completedSwap] sampleUsers aliceId swapId1.toString
          ⟨JsRating.num 5, some "great"⟩ 9).2.1
        (postFeedback [completedSwap] sampleUsers aliceId swapId1.toString
          ⟨JsRating.num 5, some "great"⟩ 9).2.2
        aliceId swapId1.toString ⟨JsRating.num 1, none⟩ 10).2 =
        (postFeedback [completedSwap] sampleUsers aliceId swapId1.toString
          ⟨JsRating.num 5, some "great"⟩ 9).2 ∧
      ∃ doc, findById (postFeedback [completedSwap] sampleUsers aliceId swapId1.toString
          ⟨JsRating.num 5, some "great"⟩ 9).2.1 swapId1 = some doc ∧
        (doc.feedback.map (fun f => f.from_)).count aliceId = 1 :=
  postFeedback_once_per_author.2 [completedSwap] sampleUsers aliceId swapId1.toString swapId1
    ⟨JsRating.num 5, some "great"⟩ ⟨JsRating.num 1, none⟩ 9 10 (by decide)
    (by rw [sample_feedback_ok])

/-! ## `POST /users/:id/feedback`: rating oneself -/

/-- A RecordRating request whose `:id` parameter is exactly the text of
`req.user._id` is answered 400 and no user record is changed. -/
theorem recordRating_self_refused (users : List User) (user : ObjectId)
    (targetUserId : String) (body : RatingBody) (now : Nat)
    (hself : targetUserId = user.toString) :
    (recordRating users user targetUserId body now).1.code = 400 ∧
      (recordRating users user targetUserId body now).2 = users := by
  unfold recordRating
  by_cases h1 : (body.rating.falsy || !truthy body.message) = true
  · rw [if_pos h1]
    exact ⟨rfl, rfl⟩
  rw [if_neg h1]
  by_cases h2 : body.rating.outOfRange = true
  · rw [if_pos h2]
    exact ⟨rfl, rfl⟩
  rw [if_neg h2, if_pos hself.symm]
  exact ⟨rfl, rfl⟩

/-- The sample recipient posts a rating of 5 to the text of the own id. -/
theorem recordRating_self_refused_witness :
    (recordRating sampleUsers bobId bobId.toString ⟨JsRating.num 5, some "me"⟩ 9).1.code = 400 ∧
      (recordRating sampleUsers bobId bobId.toString ⟨JsRating.num 5, some "me"⟩ 9).2 =
        sampleUsers :=
  recordRating_self_refused sampleUsers bobId bobId.toString ⟨JsRating.num 5, some "me"⟩ 9 rfl

/-! ## `PUT /admin/swaps/:id/moderate` -/

theorem moderateAssign_fields (swap : SwapRequest) (body : UpdateBody) (now : Nat) :
    (moderateAssign swap body now)._id = swap._id ∧
      (moderateAssign swap body now).status = body.status ∧
      (moderateAssign swap body now).adminNote = some (moderateNote body.adminNote) ∧
      (body.status = some "rejected" → (moderateAssign swap body now).rejectedAt = some now) ∧
      (body.status ≠ some "rejected" →
        (moderateAssign swap body now).rejectedAt = swap.rejectedAt) := by
  unfold moderateAssign
  simp only []
  split_ifs with h
  · exact ⟨rfl, rfl, rfl, fun _ => rfl, fun hn => absurd h hn⟩
  · exact ⟨rfl, rfl, rfl, fun hr => absurd hr h, fun _ => rfl⟩

/-- C23 as stated fails: a moderation request `rejected` with an admin note of
501 characters is answered 500 and the swap is unchanged. -/
theorem moderateSwap_long_note_fails :
    moderateSwap [pendingSwap] swapId1.toString ⟨some "rejected", some longNote⟩ 7 =
      (serverError, [pendingSwap]) := by
  have hid : castObjectId swapId1.toString = some swapId1 := by decide
  have hfind : findById [pendingSwap] swapId1 = some pendingSwap := by decide
  have hne : longNote ≠ "" := by
    intro h
    have := jsLength_longNote
    rw [h] at this
    exact absurd this (by decide)
  have hnote : moderateNote (some longNote) = longNote := by
    simp [moderateNote, truthy, hne]
  have hvalid : validMaxlength 500 (some (moderateNote (some longNote))) = false := by
    rw [hnote]
    simp [validMaxlength, jsLength_longNote]
  unfold moderateSwap
  simp only [hid, hfind, hvalid]
  simp

/-- C23, amended: ModerateAsAdmin is answered 400 and changes nothing when the
requested status is neither `rejected` nor `cancelled`. Otherwise, for every
existing swap, whatever its status and participants, when the note is absent or
at most 500 characters long the answer is 200 and the stored swap has the
requested status, the given note as adminNote ("Moderated by admin" when none
is given), `rejectedAt` set to the time of the call when the status is
`rejected`, and `rejectedAt` as before when it is `cancelled`. -/
theorem moderateSwap_spec (swaps : List SwapRequest) (swapId : String) (body : UpdateBody)
    (now : Nat) :
    (¬ (body.status = some "rejected" ∨ body.status = some "cancelled") →
      moderateSwap swaps swapId body now =
        (⟨400, "Admin can only reject or cancel swap requests"⟩, swaps)) ∧
    ∀ id swap, castObjectId swapId = some id → findById swaps id = some swap →
      (body.status = some "rejected" ∨ body.status = some "cancelled") →
      validMaxlength 500 (some (moderateNote body.adminNote)) = true →
      (moderateSwap swaps swapId body now).1.code = 200 ∧
      ∃ doc, findById (moderateSwap swaps swapId body now).2 id = some doc ∧
        doc.status = body.status ∧ doc.adminNote = some (moderateNote body.adminNote) ∧
        (body.status = some "rejected" → doc.rejectedAt = some now) ∧
        (body.status = some "cancelled" → doc.rejectedAt = swap.rejectedAt) := by
  constructor
  · intro h
    unfold moderateSwap
    rw [if_pos h]
  · intro id swap hid hfind hst hvalid
    have hres : moderateSwap swaps swapId body now =
        (⟨200, "Swap request " ++ templateText body.status ++ " by admin"⟩,
          writeBack swaps { moderateAssign swap body now with updatedAt := now }) := by
      unfold moderateSwap
      simp only [hst, not_true_eq_false, if_false, hid, hfind, hvalid, if_true]
    obtain ⟨h1, h2, h3, h4, h5⟩ := moderateAssign_fields swap body now
    rw [hres]
    refine ⟨rfl, hydrate { moderateAssign swap body now with updatedAt := now }, ?_, ?_, h3,
      h4, ?_⟩
    · exact findById_writeBack hfind (by
        show (moderateAssign swap body now)._id = id
        rw [h1, findById_id hfind])
    · show some ((moderateAssign swap body now).status.getD "pending") = body.status
      rw [h2]
      rcases hst with h | h <;> rw [h] <;> rfl
    · intro hc
      exact h5 (by rw [hc]; decide)

/-- Witness for C23, amended: an admin cancels the accepted sample swap without a
note. -/
theorem moderateSwap_spec_witness :
    (moderateSwap [acceptedSwap] swapId1.toString ⟨some "cancelled", none⟩ 7).1.code = 200 ∧
    ∃ doc, findById (moderateSwap [acceptedSwap] swapId1.toString
        ⟨some "cancelled", none⟩ 7).2 swapId1 = some doc ∧
      doc.status = some "cancelled" ∧ doc.adminNote = some (moderateNote none) ∧
      (some "cancelled" = some "rejected" → doc.rejectedAt = some 7) ∧
      (some "cancelled" = some "cancelled" → doc.rejectedAt = acceptedSwap.rejectedAt) :=
  (moderateSwap_spec [acceptedSwap] swapId1.toString ⟨some "cancelled", none⟩ 7).2 swapId1
    acceptedSwap (by decide) (by decide) (Or.inr rfl) (by decide)

/-! ## `POST /swaps`: a field longer than the schema allows -/

theorem trim_longSkill : trim longSkill = longSkill := by
  have hx : isJsSpace 'x' = false := by decide
  have hdrop : List.dropWhile isJsSpace (List.replicate 101 'x') = List.replicate 101 'x' := by
    rw [show (101 : Nat) = 100 + 1 from rfl, List.replicate_succ]
    exact List.dropWhile_cons_of_neg (by simp [hx])
  show String.mk ((List.dropWhile isJsSpace (List.replicate 101 'x')).reverse.dropWhile
    isJsSpace).reverse = String.mk (List.replicate 101 'x')
  rw [hdrop, List.reverse_replicate, hdrop, List.reverse_replicate]

theorem jsLength_longSkill : jsLength longSkill = 101 := by
  show ((List.replicate 101 'x').map (fun c => if c.toNat < 65536 then 1 else 2)).sum = 101
  rw [List.map_replicate, List.sum_replicate]
  decide

/-- C24 (the code departs from the claim): a Create request that passes the
presence, self-request, recipient and duplicate checks and whose `offeredSkill`
has 101 characters is answered 500 "Server error" by the handler's own catch
branch, not 400; no swap is created. -/
theorem postSwap_long_skill_500 :
    postSwap sampleUsers [] aliceId
        ⟨some bobId.toString, some longSkill, some "Python", none⟩ swapId1 7 =
      (serverError, []) := by
  have hne : longSkill ≠ "" := by
    intro h
    have := jsLength_longSkill
    rw [h] at this
    exact absurd this (by decide)
  have hpresent : (!truthy (some bobId.toString) || !truthy (some longSkill) ||
      !truthy (some "Python")) = false := by
    simp [truthy, hne]
    decide
  have hself : aliceId.toString ≠ bobId.toString := by decide
  have hcast : castObjectId bobId.toString = some bobId := by decide
  have hrec : findUserById sampleUsers bobId = some (sampleUser bobId true) := by decide
  have hvalid : newSwapValid
      (newSwapRequest swapId1 aliceId bobId longSkill "Python" none 7) = false := by
    simp [newSwapValid, newSwapRequest, validMaxlength, trim_longSkill, jsLength_longSkill]
  unfold postSwap
  rw [hpresent]
  simp only [Bool.false_eq_true, if_false, Option.getD_some, hself, hcast, hrec, hvalid]
  rfl

/-! ## `GET /users/:id` -/

/-- C27 (the code departs from the claim): the route has no `auth` middleware, so
`req.user` is never set and the owner of a private profile is refused like
everyone else: for the user `64b7f0c2a1d3e4f5a6b7c8d9` with a private profile
the answer is 403. The handler itself would send the profile if `req.user` held
the owner, and a public profile is sent to anyone. -/
theorem getUser_private_owner_403 :
    getUser [privateUser aliceId] aliceId.toString = (⟨403, "Profile is private"⟩, none) ∧
      (getUserHandler [privateUser aliceId] (some aliceId) aliceId.toString).1.code = 200 ∧
      (getUser [sampleUser bobId true] bobId.toString).1.code = 200 := by
  refine ⟨?_, ?_, ?_⟩ <;> decide

/-! ## Admin routes on users -/

/-- C30 (the code departs from the claim): `DELETE /admin/content/user/:id` has
no role check. For an active user whose role is `admin` it is answered 200 and
sets `isActive` to false, while `PUT /admin/users/:id/status` refuses the same
user with 400. -/
theorem adminRemoveUser_deactivates_admin :
    (adminUser carolId).role = "admin" ∧ (adminUser carolId).isActive = true ∧
      adminRemoveUser [adminUser carolId] carolId.toString =
        (⟨200, "user content moderated successfully"⟩,
          [{ adminUser carolId with isActive := false }]) ∧
      adminSetUserStatus [adminUser carolId] carolId.toString (some false) =
        (⟨400, "Cannot modify admin user status"⟩, [adminUser carolId]) := by
  refine ⟨rfl, rfl, ?_, ?_⟩ <;> decide

/-! ## `PUT /users/profile` and `PUT /users/:id`: what is left alone -/

/-- The fields a profile update must not touch. -/
theorem castProfileUpdate_frame {key : String} {v : JsField} {f : User → User}
    (h : castProfileUpdate key v = some f) (u : User) :
    (f u)._id = u._id ∧ (f u).role = u.role ∧ (f u).email = u.email ∧
      (f u).passwordHash = u.passwordHash ∧ (f u).rating = u.rating ∧
      (f u).ratingCount = u.ratingCount ∧ (f u).feedback = u.feedback ∧
      (f u).isActive = u.isActive := by
  unfold castProfileUpdate at h
  split_ifs at h
  · cases v <;> dsimp only at h <;> (try split_ifs at h) <;>
      first | (cases h; exact ⟨rfl, rfl, rfl, rfl, rfl, rfl, rfl, rfl⟩) | cases h
  · cases v <;> dsimp only at h <;> (try split_ifs at h) <;>
      first | (cases h; exact ⟨rfl, rfl, rfl, rfl, rfl, rfl, rfl, rfl⟩) | cases h
  · cases v <;> dsimp only at h <;>
      first | (cases h; exact ⟨rfl, rfl, rfl, rfl, rfl, rfl, rfl, rfl⟩) | cases h
  · cases hc : castSkills v with
    | none => simp [hc] at h
    | some l =>
      simp only [hc, Option.map_some', Option.some.injEq] at h
      subst h
      exact ⟨rfl, rfl, rfl, rfl, rfl, rfl, rfl, rfl⟩
  · cases hc : castSkills v with
    | none => simp [hc] at h
    | some l =>
      simp only [hc, Option.map_some', Option.some.injEq] at h
      subst h
      exact ⟨rfl, rfl, rfl, rfl, rfl, rfl, rfl, rfl⟩
  · cases v <;> dsimp only at h <;> (try split_ifs at h) <;>
      first | (cases h; exact ⟨rfl, rfl, rfl, rfl, rfl, rfl, rfl, rfl⟩) | cases h
  · cases v <;> dsimp only at h <;> (try split_ifs at h) <;>
      first | (cases h; exact ⟨rfl, rfl, rfl, rfl, rfl, rfl, rfl, rfl⟩) | cases h
  · cases h
    exact ⟨rfl, rfl, rfl, rfl, rfl, rfl, rfl, rfl⟩

theorem castProfileUpdates_frame {updates : List (String × JsField)} {f : User → User}
    (h : castProfileUpdates updates = some f) (u : User) :
    (f u)._id = u._id ∧ (f u).role = u.role ∧ (f u).email = u.email ∧
      (f u).passwordHash = u.passwordHash ∧ (f u).rating = u.rating ∧
      (f u).ratingCount = u.ratingCount ∧ (f u).feedback = u.feedback ∧
      (f u).isActive = u.isActive := by
  induction updates generalizing f u with
  | nil =>
    cases h
    exact ⟨rfl, rfl, rfl, rfl, rfl, rfl, rfl, rfl⟩
  | cons kv rest ih =>
    obtain ⟨key, v⟩ := kv
    unfold castProfileUpdates at h
    cases h1 : castProfileUpdate key v with
    | none => simp [h1] at h
    | some f1 =>
      cases h2 : castProfileUpdates rest with
      | none => simp [h1, h2] at h
      | some g =>
        simp only [h1, h2, Option.some.injEq] at h
        subst h
        obtain ⟨a1, a2, a3, a4, a5, a6, a7, a8⟩ := castProfileUpdate_frame h1 u
        obtain ⟨b1, b2, b3, b4, b5, b6, b7, b8⟩ := ih h2 (f1 u)
        exact ⟨b1.trans a1, b2.trans a2, b3.trans a3, b4.trans a4, b5.trans a5, b6.trans a6,
          b7.trans a7, b8.trans a8⟩

theorem updateProfile_frame (users : List User) (userId : ObjectId)
    (body : List (String × JsField)) :
    ∃ g : User → User, (updateProfile users userId body).2 = users.map g ∧
      ∀ u, (g u)._id = u._id ∧ (g u).role = u.role ∧ (g u).email = u.email ∧
        (g u).passwordHash = u.passwordHash ∧ (g u).rating = u.rating ∧
        (g u).ratingCount = u.ratingCount ∧ (g u).feedback = u.feedback ∧
        (g u).isActive = u.isActive ∧ (u._id ≠ userId → g u = u) := by
  have hsame : ∃ g : User → User, users = users.map g ∧
      ∀ u, (g u)._id = u._id ∧ (g u).role = u.role ∧ (g u).email = u.email ∧
        (g u).passwordHash = u.passwordHash ∧ (g u).rating = u.rating ∧
        (g u).ratingCount = u.ratingCount ∧ (g u).feedback = u.feedback ∧
        (g u).isActive = u.isActive ∧ (u._id ≠ userId → g u = u) :=
    ⟨id, by simp, fun u => ⟨rfl, rfl, rfl, rfl, rfl, rfl, rfl, rfl, fun _ => rfl⟩⟩
  unfold updateProfile
  simp only []
  cases hc : castProfileUpdates
      (body.filter (fun kv => decide (kv.1 ∈ allowedUpdates))) with
  | none => exact hsame
  | some f =>
    cases hf : findUserById users userId with
    | none => exact hsame
    | some target =>
      refine ⟨fun u => if u._id = userId then f u else u, rfl, fun u => ?_⟩
      by_cases hu : u._id = userId
      · obtain ⟨a1, a2, a3, a4, a5, a6, a7, a8⟩ := castProfileUpdates_frame hc u
        beta_reduce
        rw [if_pos hu]
        exact ⟨a1, a2, a3, a4, a5, a6, a7, a8, fun hne => absurd hu hne⟩
      · beta_reduce
        rw [if_neg hu]
        exact ⟨rfl, rfl, rfl, rfl, rfl, rfl, rfl, rfl, fun _ => rfl⟩

/-- C29: for every request body (a list of keys with string or string-array
values), `PUT /users/profile` and `PUT /users/:id` by the caller `user` leave
the collection of users as it was, record by record, except that the caller's
own record may differ in fields other than `_id`, `role`, `email`,
`passwordHash`, `rating`, `ratingCount`, `feedback` and `isActive`. -/
theorem profile_update_frame (users : List User) (user : ObjectId) (userId : String)
    (body : List (String × JsField)) (hwf : castObjectId user.toString = some user) :
    (∃ g : User → User, (putProfile users user body).2 = users.map g ∧
      ∀ u, (g u)._id = u._id ∧ (g u).role = u.role ∧ (g u).email = u.email ∧
        (g u).passwordHash = u.passwordHash ∧ (g u).rating = u.rating ∧
        (g u).ratingCount = u.ratingCount ∧ (g u).feedback = u.feedback ∧
        (g u).isActive = u.isActive ∧ (u._id ≠ user → g u = u)) ∧
    ∃ g : User → User, (putUser users user userId body).2 = users.map g ∧
      ∀ u, (g u)._id = u._id ∧ (g u).role = u.role ∧ (g u).email = u.email ∧
        (g u).passwordHash = u.passwordHash ∧ (g u).rating = u.rating ∧
        (g u).ratingCount = u.ratingCount ∧ (g u).feedback = u.feedback ∧
        (g u).isActive = u.isActive ∧ (u._id ≠ user → g u = u) := by
  refine ⟨updateProfile_frame users user body, ?_⟩
  have hsame : ∃ g : User → User, users = users.map g ∧
      ∀ u, (g u)._id = u._id ∧ (g u).role = u.role ∧ (g u).email = u.email ∧
        (g u).passwordHash = u.passwordHash ∧ (g u).rating = u.rating ∧
        (g u).ratingCount = u.ratingCount ∧ (g u).feedback = u.feedback ∧
        (g u).isActive = u.isActive ∧ (u._id ≠ user → g u = u) :=
    ⟨id, by simp, fun u => ⟨rfl, rfl, rfl, rfl, rfl, rfl, rfl, rfl, fun _ => rfl⟩⟩
  unfold putUser
  by_cases h : user.toString ≠ userId
  · rw [if_pos h]
    exact hsame
  · have h0 : user.toString = userId := by simpa using h
    rw [if_neg h, ← h0, hwf]
    exact updateProfile_frame users user body

/-- Witness for C29: the sample sender sends a new name together with the keys
`role` and `isActive`; only her name changes. -/
theorem profile_update_frame_witness :
    putUser sampleUsers aliceId aliceId.toString
        [("name", JsField.str "Alice"), ("role", JsField.str "admin"),
          ("isActive", JsField.str "false")] =
      (⟨200, "Profile updated successfully"⟩,
        [{ sampleUser aliceId true with name := "Alice" }, sampleUser bobId true]) ∧
    ∃ g : User → User,
      (putUser sampleUsers aliceId aliceId.toString
        [("name", JsField.str "Alice"), ("role", JsField.str "admin"),
          ("isActive", JsField.str "false")]).2 = sampleUsers.map g ∧
      ∀ u, (g u)._id = u._id ∧ (g u).role = u.role ∧ (g u).email = u.email ∧
        (g u).passwordHash = u.passwordHash ∧ (g u).rating = u.rating ∧
        (g u).ratingCount = u.ratingCount ∧ (g u).feedback = u.feedback ∧
        (g u).isActive = u.isActive ∧ (u._id ≠ aliceId → g u = u) :=
  ⟨by decide,
    (profile_update_frame sampleUsers aliceId aliceId.toString
      [("name", JsField.str "Alice"), ("role", JsField.str "admin"),
        ("isActive", JsField.str "false")] (by decide)).2⟩

/-! ## `POST /swaps/:id/feedback`: two writes, one after the other -/

theorem postFeedback_after_save {swaps : List SwapRequest} {users : List User}
    {user : ObjectId} {swapId : String} (id : ObjectId) {swap : SwapRequest}
    {body : FeedbackBody} {now : Nat} (q : ℚ)
    (hid : castObjectId swapId = some id) (hfind : findById swaps id = some swap)
    (hstr : feedbackStranger users swap user = some false)
    (hst : swap.status = some "completed")
    (hany : swap.feedback.any (fun f => decide (f.from_.toString = user.toString)) = false)
    (hrating : body.rating = JsRating.num q) (h1 : 1 ≤ q) (h5 : q ≤ 5)
    (hlen : validMaxlength 500 (some (commentOrEmpty body.comment)) = true)
    (hrt : rateTarget users swap user q body.comment now = none) :
    postFeedback swaps users user swapId body now =
      (serverError,
        writeBack swaps
          { swap with
            feedback := swap.feedback ++ [⟨user, q, commentOrEmpty body.comment, now⟩]
            updatedAt := now },
        users) := by
  have hfalsy : body.rating.falsy = false := by
    rw [hrating]
    have hq : q ≠ 0 := by linarith
    simp [JsRating.falsy, hq]
  have hrange : body.rating.outOfRange = false := by
    rw [hrating]
    simp [JsRating.outOfRange, h1, h5]
  have hcast : body.rating.cast = some q := by
    rw [hrating]
    rfl
  unfold postFeedback
  simp only [hfalsy, hrange, Bool.false_eq_true, if_false, hid, hfind, hstr, hst, ne_eq,
    not_true_eq_false, hany, hcast, hlen, if_true, hrt]

/-- The three ways an AttachFeedback request can end (lines 334-349 make two
writes, the swap first). It fails with no swap and no user changed; or it is
answered 200 with the feedback entry appended to the swap and the target user's
record replaced by the same record with the entry appended and the rating
updated; or it fails with 500 after the swap was saved, the swap keeping the new
entry and no user being changed. -/
theorem postFeedback_outcomes (swaps : List SwapRequest) (users : List User)
    (user : ObjectId) (swapId : String) (body : FeedbackBody) (now : Nat) :
    (∃ r : Response, r.code ≠ 200 ∧
        postFeedback swaps users user swapId body now = (r, swaps, users)) ∨
    (∃ id swap q target tu, findById swaps id = some swap ∧
        findUserById users target = some tu ∧
        postFeedback swaps users user swapId body now =
          (⟨200, "Feedback submitted successfully"⟩,
            writeBack swaps
              { swap with
                feedback := swap.feedback ++ [⟨user, q, commentOrEmpty body.comment, now⟩]
                updatedAt := now },
            writeBackUser users
              (updateRating
                { tu with
                  feedback := tu.feedback ++
                    [⟨user, feedbackMessage body.comment swap, q, now⟩] }
                q))) ∨
    ∃ id swap q, findById swaps id = some swap ∧
      postFeedback swaps users user swapId body now =
        (serverError,
          writeBack swaps
            { swap with
              feedback := swap.feedback ++ [⟨user, q, commentOrEmpty body.comment, now⟩]
              updatedAt := now },
          users) := by
  rcases postFeedback_shape swaps users user swapId body now with
    h | ⟨id, swap, q, -, hfind, hstr, -, -, -, -, -, hres⟩
  · exact Or.inl h
  · rcases hres with ⟨-, hres⟩ | ⟨users1, hrt, hres⟩
    · exact Or.inr (Or.inr ⟨id, swap, q, hfind, hres⟩)
    · obtain ⟨target, tu, -, htu, husers⟩ := rateTarget_some hstr hrt
      rw [husers] at hres
      exact Or.inr (Or.inl ⟨id, swap, q, target, tu, hfind, htu, hres⟩)

/-! ## Ratings stay within bounds -/

theorem rateTarget_step {users users1 : List User} {swap : SwapRequest} {user : ObjectId}
    {q : ℚ} {comment : Option String} {now : Nat}
    (h : rateTarget users swap user q comment now = some users1) :
    users1 = users ∨ RatingRecorded users users1 := by
  unfold rateTarget at h
  cases ht : feedbackTarget users swap user with
  | none => simp [ht] at h
  | some tid =>
    cases hu : findUserById users tid with
    | none =>
      simp only [ht, hu, Option.some.injEq] at h
      exact Or.inl h.symm
    | some tu =>
      simp only [ht, hu] at h
      split_ifs at h with hv
      right
      exact ⟨tid, tu, ⟨user, feedbackMessage comment swap, q, now⟩, hu, hv,
        (Option.some.inj h).symm⟩

theorem postFeedback_step (swaps : List SwapRequest) (users : List User) (user : ObjectId)
    (swapId : String) (body : FeedbackBody) (now : Nat) :
    (postFeedback swaps users user swapId body now).2.2 = users ∨
      RatingRecorded users (postFeedback swaps users user swapId body now).2.2 := by
  rcases postFeedback_shape swaps users user swapId body now with
    ⟨r, -, hres⟩ | ⟨id, swap, q, -, -, -, -, -, -, -, -, hres⟩
  · rw [hres]
    exact Or.inl rfl
  · rcases hres with ⟨-, hres⟩ | ⟨users1, hrt, hres⟩
    · rw [hres]
      exact Or.inl rfl
    · rw [hres]
      exact rateTarget_step hrt

theorem recordRating_step (users : List User) (user : ObjectId) (targetUserId : String)
    (body : RatingBody) (now : Nat) :
    (recordRating users user targetUserId body now).2 = users ∨
      RatingRecorded users (recordRating users user targetUserId body now).2 := by
  by_cases h1 : (body.rating.falsy || !truthy body.message) = true
  · left
    unfold recordRating
    rw [if_pos h1]
  by_cases h2 : body.rating.outOfRange = true
  · left
    unfold recordRating
    rw [if_neg h1, if_pos h2]
  by_cases h3 : user.toString = targetUserId
  · left
    unfold recordRating
    rw [if_neg h1, if_neg h2, if_pos h3]
  cases hid : castObjectId targetUserId with
  | none =>
    left
    unfold recordRating
    simp only [if_neg h1, if_neg h2, if_neg h3, hid]
  | some id =>
    cases hfind : findUserById users id with
    | none =>
      left
      unfold recordRating
      simp only [if_neg h1, if_neg h2, if_neg h3, hid, hfind]
    | some target =>
      by_cases hany :
          target.feedback.any (fun f => decide (f.from_.toString = user.toString)) = true
      · left
        unfold recordRating
        simp only [if_neg h1, if_neg h2, if_neg h3, hid, hfind, if_pos hany]
      cases hcast : body.rating.cast with
      | none =>
        left
        unfold recordRating
        simp only [if_neg h1, if_neg h2, if_neg h3, hid, hfind, if_neg hany, hcast]
      | some q =>
        by_cases hv : ratedUserValid
            (updateRating
              { target with
                feedback := target.feedback ++ [⟨user, body.message.getD "", q, now⟩] } q)
            ⟨user, body.message.getD "", q, now⟩ = true
        · right
          refine ⟨id, target, ⟨user, body.message.getD "", q, now⟩, hfind, hv, ?_⟩
          unfold recordRating
          simp only [if_neg h1, if_neg h2, if_neg h3, hid, hfind, if_neg hany, hcast,
            if_pos hv]
        · left
          unfold recordRating
          simp only [if_neg h1, if_neg h2, if_neg h3, hid, hfind, if_neg hany, hcast,
            if_neg hv]

theorem forall_writeBackUser {P : User → Prop} {users : List User} {doc : User}
    (hall : ∀ u ∈ users, P u) (hdoc : P doc) : ∀ u ∈ writeBackUser users doc, P u := by
  intro u hu
  unfold writeBackUser at hu
  rw [List.mem_map] at hu
  obtain ⟨u0, hu0, rfl⟩ := hu
  by_cases h : u0._id = doc._id
  · rw [if_pos h]
    exact hdoc
  · rw [if_neg h]
    exact hall u0 hu0

theorem reachableUsers_invariant {P : User → Prop}
    (hfresh : ∀ u : User, u.rating = 0 → u.ratingCount = 0 → u.feedback = [] → P u)
    (hstep : ∀ (tu : User) (entry : UserFeedback), P tu →
      ratedUserValid
        (updateRating { tu with feedback := tu.feedback ++ [entry] } entry.rating) entry = true →
      P (updateRating { tu with feedback := tu.feedback ++ [entry] } entry.rating))
    {users : List User} (h : ReachableUsers users) : ∀ u ∈ users, P u := by
  have hrec : ∀ {us us1 : List User}, (∀ u ∈ us, P u) → RatingRecorded us us1 →
      ∀ u ∈ us1, P u := by
    rintro us us1 hall ⟨tid, tu, entry, hfind, hv, rfl⟩
    exact forall_writeBackUser hall
      (hstep tu entry (hall tu (List.mem_of_find?_eq_some hfind)) hv)
  induction h with
  | fresh users hf =>
    intro u hu
    obtain ⟨h1, h2, h3⟩ := hf u hu
    exact hfresh u h1 h2 h3
  | record user targetUserId body now _ ih =>
    rcases recordRating_step _ user targetUserId body now with h | h
    · rw [h]
      exact ih
    · exact hrec ih h
  | attach swaps user swapId body now _ ih =>
    rcases postFeedback_step swaps _ user swapId body now with h | h
    · rw [h]
      exact ih
    · exact hrec ih h

/-- C21: in every users collection reachable from freshly registered users
through RecordRating and AttachFeedback, every user has `ratingCount ≥ 0` and,
when `ratingCount > 0`, a stored `rating` (the mean kept by `updateRating`) in
[0,5] and an `averageRating` in [0,5]. -/
theorem reachableUsers_rating_bounds (users : List User) (h : ReachableUsers users) :
    ∀ u ∈ users, 0 ≤ u.ratingCount ∧
      (0 < u.ratingCount →
        0 ≤ u.rating ∧ u.rating ≤ 5 ∧ 0 ≤ averageRating u ∧ averageRating u ≤ 5) := by
  have hbounds : ∀ u ∈ users, 0 ≤ u.rating ∧ u.rating ≤ 5 := by
    refine reachableUsers_invariant (P := fun u => 0 ≤ u.rating ∧ u.rating ≤ 5) ?_ ?_ h
    · intro u h1 _ _
      rw [h1]
      norm_num
    · intro tu entry _ hv
      simp only [ratedUserValid, Bool.and_eq_true, decide_eq_true_eq] at hv
      exact ⟨hv.1.2, hv.2⟩
  intro u hu
  obtain ⟨h0, h5⟩ := hbounds u hu
  refine ⟨Nat.zero_le _, fun hpos => ⟨h0, h5, ?_, ?_⟩⟩
  · unfold averageRating
    split_ifs
    · exact le_refl _
    · exact div_nonneg h0 (Nat.cast_nonneg _)
  · unfold averageRating
    split_ifs
    · norm_num
    · have hc : (1 : ℚ) ≤ (u.ratingCount : ℚ) := by exact_mod_cast hpos
      have hcpos : (0 : ℚ) < (u.ratingCount : ℚ) := by linarith
      rw [div_le_iff₀ hcpos]
      nlinarith

theorem recordRating_success {users : List User} {user : ObjectId} {targetUserId : String}
    (id : ObjectId) {target : User} {body : RatingBody} {now : Nat} (q : ℚ)
    (hmsg : truthy body.message = true) (hrating : body.rating = JsRating.num q)
    (h1 : 1 ≤ q) (h5 : q ≤ 5) (hne : user.toString ≠ targetUserId)
    (hid : castObjectId targetUserId = some id) (hfind : findUserById users id = some target)
    (hany : target.feedback.any (fun f => decide (f.from_.toString = user.toString)) = false)
    (hvalid : ratedUserValid
      (updateRating
        { target with feedback := target.feedback ++ [⟨user, body.message.getD "", q, now⟩] } q)
      ⟨user, body.message.getD "", q, now⟩ = true) :
    recordRating users user targetUserId body now =
      (⟨200, "Feedback added successfully"⟩,
        writeBackUser users
          (updateRating
            { target with
              feedback := target.feedback ++ [⟨user, body.message.getD "", q, now⟩] } q)) := by
  have hfalsy : body.rating.falsy = false := by
    rw [hrating]
    have hq : q ≠ 0 := by linarith
    simp [JsRating.falsy, hq]
  have hrange : body.rating.outOfRange = false := by
    rw [hrating]
    simp [JsRating.outOfRange, h1, h5]
  have hcast : body.rating.cast = some q := by
    rw [hrating]
    rfl
  unfold recordRating
  simp only [hfalsy, hmsg, Bool.not_true, Bool.or_false, hrange, Bool.false_eq_true, if_false,
    hne, hid, hfind, hany, hcast, hvalid, if_true]

/-- The sample users after the sender rated the recipient 5 at time 9. -/
theorem sample_rating_ok :
    recordRating sampleUsers aliceId bobId.toString ⟨JsRating.num 5, some "ok"⟩ 9 =
      (⟨200, "Feedback added successfully"⟩,
        writeBackUser sampleUsers
          (updateRating
            { sampleUser bobId true with
              feedback := (sampleUser bobId true).feedback ++ [⟨aliceId, "ok", 5, 9⟩] } 5)) :=
  recordRating_success bobId 5 (by decide) rfl (by norm_num) (by norm_num) (by decide)
    (by decide) (by decide) (by decide)
    (ratedUserValid_of_bounds (sampleUser bobId true) aliceId "ok" 5 9 (by simp [sampleUser])
      (by simp [sampleUser]) (by norm_num) (by norm_num) (by decide) (by decide))

/-- Witness for C21: the sample recipient after a rating of 5 from the sender. -/
theorem reachableUsers_rating_bounds_witness :
    0 ≤ (updateRating
        { sampleUser bobId true with
          feedback := (sampleUser bobId true).feedback ++ [⟨aliceId, "ok", 5, 9⟩] }
        5).ratingCount ∧
      (0 < (updateRating
          { sampleUser bobId true with
            feedback := (sampleUser bobId true).feedback ++ [⟨aliceId, "ok", 5, 9⟩] }
          5).ratingCount →
        0 ≤ (updateRating
          { sampleUser bobId true with
            feedback := (sampleUser bobId true).feedback ++ [⟨aliceId, "ok", 5, 9⟩] }
          5).rating ∧
        (updateRating
          { sampleUser bobId true with
            feedback := (sampleUser bobId true).feedback ++ [⟨aliceId, "ok", 5, 9⟩] }
          5).rating ≤ 5 ∧
        0 ≤ averageRating (updateRating
          { sampleUser bobId true with
            feedback := (sampleUser bobId true).feedback ++ [⟨aliceId, "ok", 5, 9⟩] }
          5) ∧
        averageRating (updateRating
          { sampleUser bobId true with
            feedback := (sampleUser bobId true).feedback ++ [⟨aliceId, "ok", 5, 9⟩] }
          5) ≤ 5) :=
  reachableUsers_rating_bounds
    (recordRating sampleUsers aliceId bobId.toString ⟨JsRating.num 5, some "ok"⟩ 9).2
    (ReachableUsers.record aliceId bobId.toString ⟨JsRating.num 5, some "ok"⟩ 9
      (ReachableUsers.fresh sampleUsers (by decide)))
    _ (by
      rw [sample_rating_ok]
      simp [writeBackUser, sampleUsers, updateRating, sampleUser])

/-! ## Ratings sent as numbers: count and mean follow the feedback list -/

/-- For requests whose `rating` is a JSON number, in exact arithmetic: in every
reachable users collection `ratingCount` is the length of the user's feedback
list and `rating * ratingCount` is the sum of the ratings in that list. -/
theorem reachableUsers_mean_of_numbers (users : List User) (h : ReachableUsers users) :
    ∀ u ∈ users, u.ratingCount = u.feedback.length ∧
      u.rating * (u.ratingCount : ℚ) = (u.feedback.map (fun f => f.rating)).sum := by
  refine reachableUsers_invariant
    (P := fun u => u.ratingCount = u.feedback.length ∧
      u.rating * (u.ratingCount : ℚ) = (u.feedback.map (fun f => f.rating)).sum) ?_ ?_ h
  · intro u h1 h2 h3
    rw [h1, h2, h3]
    simp
  · intro tu entry hP _
    obtain ⟨hc, hs⟩ := hP
    constructor
    · show tu.ratingCount + 1 = (tu.feedback ++ [entry]).length
      rw [List.length_append, List.length_singleton, hc]
    · rw [updateRating_total]
      show tu.rating * (tu.ratingCount : ℚ) + entry.rating =
        ((tu.feedback ++ [entry]).map (fun f => f.rating)).sum
      rw [hs, List.map_append, List.sum_append]
      simp

/-! ## The caller's own id in another spelling -/

/-- C9 (the code departs from the claim): the self-request check of line 17
compares the text of the caller's id with the request string. The caller whose
id is `64b7f0c2a1d3e4f5a6b7c8da` sends `toUser` as the same digits in upper
case, which the ORM casts to the caller's own id; the request is not refused
with 400 but answered 201, and a swap from the caller to the caller is added to
the store. -/
theorem postSwap_self_not_refused :
    castObjectId "64B7F0C2A1D3E4F5A6B7C8DA" = some bobId ∧
      postSwap sampleUsers [pendingSwap] bobId
          ⟨some "64B7F0C2A1D3E4F5A6B7C8DA", some "Guitar", some "Piano", some "hi"⟩ swapId2 7 =
        (⟨201, "Swap request created successfully"⟩,
          [pendingSwap, newSwapRequest swapId2 bobId bobId "Guitar" "Piano" (some "hi") 7]) := by
  refine ⟨by decide, by decide⟩

/-- C22 (the code departs from the claim): the self-rating check of line 237
compares the text of the caller's id with the `:id` parameter. The caller whose
id is `64b7f0c2a1d3e4f5a6b7c8d9` posts a rating of 5 to the same digits in upper
case; the strings differ, `User.findById` finds the caller, and the caller's own
record gets the entry, `ratingCount` 1 and `rating` 5, with answer 200. -/
theorem recordRating_self_rating_accepted :
    aliceId.toString ≠ "64B7F0C2A1D3E4F5A6B7C8D9" ∧
      castObjectId "64B7F0C2A1D3E4F5A6B7C8D9" = some aliceId ∧
      ∃ users1 u,
        recordRating sampleUsers aliceId "64B7F0C2A1D3E4F5A6B7C8D9"
            ⟨JsRating.num 5, some "me"⟩ 9 =
          (⟨200, "Feedback added successfully"⟩, users1) ∧
        findUserById sampleUsers aliceId = some (sampleUser aliceId true) ∧
        findUserById users1 aliceId = some u ∧
        u.ratingCount = 1 ∧ u.rating = 5 ∧ u.feedback = [⟨aliceId, "me", 5, 9⟩] := by
  have hres : recordRating sampleUsers aliceId "64B7F0C2A1D3E4F5A6B7C8D9"
      ⟨JsRating.num 5, some "me"⟩ 9 =
      (⟨200, "Feedback added successfully"⟩,
        writeBackUser sampleUsers
          (updateRating
            { sampleUser aliceId true with
              feedback := (sampleUser aliceId true).feedback ++ [⟨aliceId, "me", 5, 9⟩] } 5)) :=
    recordRating_success aliceId 5 (by decide) rfl (by norm_num) (by norm_num) (by decide)
      (by decide) (by decide) (by decide)
      (ratedUserValid_of_bounds (sampleUser aliceId true) aliceId "me" 5 9
        (by simp [sampleUser]) (by simp [sampleUser]) (by norm_num) (by norm_num) (by decide)
        (by decide))
  have hu : findUserById
      (writeBackUser sampleUsers
        (updateRating
          { sampleUser aliceId true with
            feedback := (sampleUser aliceId true).feedback ++ [⟨aliceId, "me", 5, 9⟩] } 5))
      aliceId =
      some (updateRating
        { sampleUser aliceId true with
          feedback := (sampleUser aliceId true).feedback ++ [⟨aliceId, "me", 5, 9⟩] } 5) :=
    findUserById_writeBackUser_self (sampleUser aliceId true) (by decide)
  refine ⟨by decide, by decide, _, _, hres, by decide, hu, rfl, ?_, rfl⟩
  simp [updateRating, sampleUser]

/-! ## `POST /swaps/:id/feedback` on a swap from a user to the same user -/

/-- C18 (the code departs from the claim): through the routes alone the sample
sender creates a swap to the sender's own id in upper case (201), marks it
completed (200) and leaves feedback on it (200). Line 337 then takes `toUser`,
the caller, as the target: the caller's own record goes from no ratings to one
feedback entry written by the caller, `ratingCount` 1 and `rating` 5. -/
theorem postFeedback_self_swap_rates_caller :
    ∃ swaps1 swaps2 swaps3 users3 u,
      postSwap sampleUsers [] aliceId
          ⟨some "64B7F0C2A1D3E4F5A6B7C8D9", some "React", some "Python", none⟩ swapId1 7 =
        (⟨201, "Swap request created successfully"⟩, swaps1) ∧
      putSwap swaps1 aliceId swapId1.toString ⟨some "completed", none⟩ 8 =
        (⟨200, "Swap request completed successfully"⟩, swaps2) ∧
      postFeedback swaps2 sampleUsers aliceId swapId1.toString ⟨JsRating.num 5, some "great"⟩ 9 =
        (⟨200, "Feedback submitted successfully"⟩, swaps3, users3) ∧
      findUserById sampleUsers aliceId = some (sampleUser aliceId true) ∧
      findUserById users3 aliceId = some u ∧
      u.ratingCount = 1 ∧ u.rating = 5 ∧ u.feedback = [⟨aliceId, "great", 5, 9⟩] := by
  have h1 : postSwap sampleUsers [] aliceId
      ⟨some "64B7F0C2A1D3E4F5A6B7C8D9", some "React", some "Python", none⟩ swapId1 7 =
      (⟨201, "Swap request created successfully"⟩,
        [newSwapRequest swapId1 aliceId aliceId "React" "Python" none 7]) := by
    decide
  have h2 : putSwap [newSwapRequest swapId1 aliceId aliceId "React" "Python" none 7] aliceId
      swapId1.toString ⟨some "completed", none⟩ 8 =
      (⟨200, "Swap request completed successfully"⟩,
        [{ newSwapRequest swapId1 aliceId aliceId "React" "Python" none 7 with
            status := some "completed", completedAt := some 8, updatedAt := 8 }]) := by
    decide
  have hrt : rateTarget sampleUsers
      { newSwapRequest swapId1 aliceId aliceId "React" "Python" none 7 with
        status := some "completed", completedAt := some 8, updatedAt := 8 }
      aliceId 5 (some "great") 9 =
      some (writeBackUser sampleUsers
        (updateRating
          { sampleUser aliceId true with
            feedback := (sampleUser aliceId true).feedback ++
              [⟨aliceId, feedbackMessage (some "great")
                { newSwapRequest swapId1 aliceId aliceId "React" "Python" none 7 with
                  status := some "completed", completedAt := some 8, updatedAt := 8 }, 5, 9⟩] }
          5)) :=
    rateTarget_eq aliceId (by decide) (by decide)
      (ratedUserValid_of_bounds (sampleUser aliceId true) aliceId _ 5 9 (by simp [sampleUser])
        (by simp [sampleUser]) (by norm_num) (by norm_num) (by decide) (by decide))
  have h3 := @postFeedback_success
    [{ newSwapRequest swapId1 aliceId aliceId "React" "Python" none 7 with
        status := some "completed", completedAt := some 8, updatedAt := 8 }]
    sampleUsers _ aliceId swapId1.toString swapId1 _ ⟨JsRating.num 5, some "great"⟩ 9 5
    (by decide) (by decide) (by decide) rfl (by decide) rfl (by norm_num) (by norm_num)
    (by decide) hrt
  have hu : findUserById
      (writeBackUser sampleUsers
        (updateRating
          { sampleUser aliceId true with
            feedback := (sampleUser aliceId true).feedback ++
              [⟨aliceId, feedbackMessage (some "great")
                { newSwapRequest swapId1 aliceId aliceId "React" "Python" none 7 with
                  status := some "completed", completedAt := some 8, updatedAt := 8 }, 5, 9⟩] }
          5))
      aliceId =
      some (updateRating
        { sampleUser aliceId true with
          feedback := (sampleUser aliceId true).feedback ++
            [⟨aliceId, feedbackMessage (some "great")
              { newSwapRequest swapId1 aliceId aliceId "React" "Python" none 7 with
                status := some "completed", completedAt := some 8, updatedAt := 8 }, 5, 9⟩] }
        5) :=
    findUserById_writeBackUser_self (sampleUser aliceId true) (by decide)
  refine ⟨_, _, _, _, _, h1, h2, h3, by decide, hu, rfl, ?_, rfl⟩
  simp [updateRating, sampleUser]

/-! ## `POST /users/:id/feedback`: two requests between load and save -/

/-- The handler of `POST /users/:id/feedback` is its load followed by its store
on the same collection. -/
theorem recordRating_eq_load_store (users : List User) (user : ObjectId)
    (targetUserId : String) (body : RatingBody) (now : Nat) :
    recordRating users user targetUserId body now =
      match recordRatingLoad users user targetUserId body with
      | .error r => (r, users)
      | .ok target => recordRatingStore users user body now target := by
  unfold recordRating recordRatingLoad recordRatingStore
  by_cases h1 : (body.rating.falsy || !truthy body.message) = true
  · simp only [if_pos h1]
  simp only [if_neg h1]
  by_cases h2 : body.rating.outOfRange = true
  · simp only [if_pos h2]
  simp only [if_neg h2]
  by_cases h3 : user.toString = targetUserId
  · simp only [if_pos h3]
  simp only [if_neg h3]
  cases hc : castObjectId targetUserId with
  | none => rfl
  | some id =>
    dsimp only
    cases hf : findUserById users id with
    | none => rfl
    | some target => rfl

theorem recordRatingLoad_ok {users : List User} {user : ObjectId} {targetUserId : String}
    (id : ObjectId) {target : User} {body : RatingBody} (q : ℚ)
    (hmsg : truthy body.message = true) (hrating : body.rating = JsRating.num q)
    (h1 : 1 ≤ q) (h5 : q ≤ 5) (hne : user.toString ≠ targetUserId)
    (hid : castObjectId targetUserId = some id) (hfind : findUserById users id = some target) :
    recordRatingLoad users user targetUserId body = .ok target := by
  have hfalsy : body.rating.falsy = false := by
    rw [hrating]
    have hq : q ≠ 0 := by linarith
    simp [JsRating.falsy, hq]
  have hrange : body.rating.outOfRange = false := by
    rw [hrating]
    simp [JsRating.outOfRange, h1, h5]
  unfold recordRatingLoad
  simp only [hfalsy, hmsg, Bool.not_true, Bool.or_false, hrange, Bool.false_eq_true, if_false,
    hne, hid, hfind]

theorem recordRatingStore_ok {users : List User} {user : ObjectId} {target : User}
    {body : RatingBody} {now : Nat} (q : ℚ) (hrating : body.rating = JsRating.num q)
    (hany : target.feedback.any (fun f => decide (f.from_.toString = user.toString)) = false)
    (hvalid : ratedUserValid
      (updateRating
        { target with feedback := target.feedback ++ [⟨user, body.message.getD "", q, now⟩] } q)
      ⟨user, body.message.getD "", q, now⟩ = true) :
    recordRatingStore users user body now target =
      (⟨200, "Feedback added successfully"⟩,
        writeBackUser users
          (updateRating
            { target with
              feedback := target.feedback ++ [⟨user, body.message.getD "", q, now⟩] } q)) := by
  have hcast : body.rating.cast = some q := by
    rw [hrating]
    rfl
  unfold recordRatingStore
  simp only [hany, Bool.false_eq_true, if_false, hcast, hvalid, if_true]

/-- C26 (the code departs from the claim): two users each send a rating of 5
for the same fresh user. Both requests load the target before either saves;
each pushes its entry on the document it loaded, `updateRating` computes from
that document, and both are answered 200. The second save overwrites the first:
the target is left with `ratingCount` 1 and `rating * ratingCount` 5, where two
recorded ratings of 5 make 2 and 10. -/
theorem recordRating_lost_update :
    ∃ users1 users2 u,
      recordRatingLoad threeUsers aliceId bobId.toString ⟨JsRating.num 5, some "ok"⟩ =
        .ok (sampleUser bobId true) ∧
      recordRatingLoad threeUsers carolId bobId.toString ⟨JsRating.num 5, some "fine"⟩ =
        .ok (sampleUser bobId true) ∧
      recordRatingStore threeUsers aliceId ⟨JsRating.num 5, some "ok"⟩ 9
          (sampleUser bobId true) =
        (⟨200, "Feedback added successfully"⟩, users1) ∧
      recordRatingStore users1 carolId ⟨JsRating.num 5, some "fine"⟩ 10
          (sampleUser bobId true) =
        (⟨200, "Feedback added successfully"⟩, users2) ∧
      findUserById users2 bobId = some u ∧
      u.ratingCount = 1 ∧ u.rating * (u.ratingCount : ℚ) = 5 := by
  have hu1 : findUserById
      (writeBackUser threeUsers
        (updateRating
          { sampleUser bobId true with
            feedback := (sampleUser bobId true).feedback ++ [⟨aliceId, "ok", 5, 9⟩] } 5))
      bobId =
      some (updateRating
        { sampleUser bobId true with
          feedback := (sampleUser bobId true).feedback ++ [⟨aliceId, "ok", 5, 9⟩] } 5) :=
    findUserById_writeBackUser_self (sampleUser bobId true) (by decide)
  have hu2 : findUserById
      (writeBackUser
        (writeBackUser threeUsers
          (updateRating
            { sampleUser bobId true with
              feedback := (sampleUser bobId true).feedback ++ [⟨aliceId, "ok", 5, 9⟩] } 5))
        (updateRating
          { sampleUser bobId true with
            feedback := (sampleUser bobId true).feedback ++ [⟨carolId, "fine", 5, 10⟩] } 5))
      bobId =
      some (updateRating
        { sampleUser bobId true with
          feedback := (sampleUser bobId true).feedback ++ [⟨carolId, "fine", 5, 10⟩] } 5) :=
    findUserById_writeBackUser_self _ hu1
  refine ⟨_, _, _,
    recordRatingLoad_ok bobId 5 (by decide) rfl (by norm_num) (by norm_num) (by decide)
      (by decide) (by decide),
    recordRatingLoad_ok bobId 5 (by decide) rfl (by norm_num) (by norm_num) (by decide)
      (by decide) (by decide),
    recordRatingStore_ok 5 rfl (by decide)
      (ratedUserValid_of_bounds (sampleUser bobId true) aliceId "ok" 5 9
        (by simp [sampleUser]) (by simp [sampleUser]) (by norm_num) (by norm_num) (by decide)
        (by decide)),
    recordRatingStore_ok 5 rfl (by decide)
      (ratedUserValid_of_bounds (sampleUser bobId true) carolId "fine" 5 10
        (by simp [sampleUser]) (by simp [sampleUser]) (by norm_num) (by norm_num) (by decide)
        (by decide)),
    hu2, rfl, ?_⟩
  simp [updateRating, sampleUser]

end SkillSwap
